import Mathlib

/-!
# QuotesState

A shallow embedding of `src/modules/quotes/QuotesState.js`: the thunks that work
on the Realm table of quotes (`loadQuotes`, `newQuote`, `toggleBookmark`) and
the Redux reducer `QuotesReducer` over the preference state.

Modelling conventions.

* The Realm table `Quote` is the list of its rows in insertion order; a live
  Realm object is a row position together with the row's current value.
* `displayedTimes` and `id` are natural numbers (Realm `int`, JavaScript numbers
  holding integers in the exactly representable range, where `+= 1` is exact).
* A plain JavaScript object with boolean values (`state.categories`) is an
  association list in key insertion order, the order `Object.keys` enumerates
  (keys here are category names, none of them an array index).
* A filter expression is the sequence of the lexical terms of the string that
  `newQuote` concatenates; Realm parses it with `AND` binding tighter than `OR`
  and rejects what is not a predicate.
* A thrown exception is `Except.error`.
* A thunk consists of its synchronous part and of the promise callback it
  registers. `newQuote`, `toggleBookmark` and `perform` run both together;
  `occur` runs them as separate events, so that calls can overlap.
* `_.random(0, 1)` is an explicit argument of the reducer.
-/

namespace QuotesState

/-! ## Data model -/

/-- A row of the Realm table described by `QuoteSchema`. -/
structure Quote where
  quote : String
  author : String
  displayedTimes : Nat
  bookmarked : Bool
  id : Nat
  category : String
  deriving DecidableEq, Repr

/-- The rows of `realm.objects('Quote')`, in insertion order. -/
abbrev Realm := List Quote

/-- A record of `quotesData.quotes`; `author` may be missing. -/
structure QuoteData where
  quote : String
  author : Option String
  category : String
  deriving DecidableEq, Repr

/-- The JavaScript values an action payload carries (and hence the values that
`bgType` can be assigned). -/
inductive JSValue where
  | undefined
  | string (s : String)
  | nextQuotePayload (nextQuote : Quote) (index : Nat)
  deriving DecidableEq, Repr

/-- A plain object with boolean values, as its key/value pairs in insertion order. -/
abbrev BoolObject := List (String × Bool)

/-- Property read `o[k]`; `none` is `undefined`. -/
def BoolObject.get (o : BoolObject) (k : String) : Option Bool :=
  match o with
  | [] => none
  | (k', v) :: rest => if k' = k then some v else BoolObject.get rest k

/-- The list `Object.keys(o)`. -/
def BoolObject.keys (o : BoolObject) : List String :=
  o.map Prod.fst

/-- The object `{...o, [k]: v}`: an existing key keeps its position, a new key
goes last. -/
def BoolObject.set (o : BoolObject) (k : String) (v : Bool) : BoolObject :=
  match o with
  | [] => [(k, v)]
  | (k', v') :: rest =>
    if k' = k then (k', v) :: rest else (k', v') :: BoolObject.set rest k v

/-- JavaScript truthiness of a property read with boolean values:
`undefined` is falsy. -/
def truthy (v : Option Bool) : Bool :=
  v.getD false

/-- The slice `state.quotes` of the Redux state. `currentQuote` is `none` for
`null` (or `undefined`), else a plain snapshot of a quote. -/
structure State where
  quotesLoaded : Bool
  currentQuote : Option Quote
  isDarkBg : Bool
  bgType : JSValue
  showFavorites : Bool
  categories : BoolObject
  deriving DecidableEq, Repr

/-- The constant `BG_TYPES.BG_WHITE`. -/
def BG_TYPES.BG_WHITE : JSValue := JSValue.string "BG_WHITE"

/-- The constant `BG_TYPES.BG_BLACK`. -/
def BG_TYPES.BG_BLACK : JSValue := JSValue.string "BG_BLACK"

/-- The constant `BG_TYPES.BG_RANDOM`. -/
def BG_TYPES.BG_RANDOM : JSValue := JSValue.string "BG_RANDOM"

/-- The constant `initialState`. -/
def initialState : State where
  quotesLoaded := false
  currentQuote := none
  isDarkBg := false
  bgType := BG_TYPES.BG_RANDOM
  showFavorites := false
  categories :=
    [("inspire", true), ("management", false), ("sports", false), ("life", false),
     ("funny", false), ("love", false), ("art", false), ("students", false)]

/-- Action type `LOAD_QUOTES`. -/
def LOAD_QUOTES : String := "QuotesState/LOAD_QUOTES"

/-- Action type `NEXT_QUOTE`. -/
def NEXT_QUOTE : String := "QuotesState/NEXT_QUOTE"

/-- Action type `TOGGLE_BOOKMARK`. -/
def TOGGLE_BOOKMARK : String := "QuotesState/TOGGLE_BOOKMARK"

/-- Action type `CHANGE_BG_TYPE`. -/
def CHANGE_BG_TYPE : String := "QuotesState/CHANGE_BG_TYPE"

/-- Action type `TOGGLE_CATEGORY`. -/
def TOGGLE_CATEGORY : String := "QuotesState/TOGGLE_CATEGORY"

/-- Action type `TOGGLE_FAVORITES`. -/
def TOGGLE_FAVORITES : String := "QuotesState/TOGGLE_FAVORITES"

/-- Action type `SELECT_ALL_CATEGORIES`. -/
def SELECT_ALL_CATEGORIES : String := "QuotesState/SELECT_ALL_CATEGORIES"

/-- A Redux action: its `type` and its `payload` (`undefined` when the action
object has no payload field). -/
structure Action where
  type : String
  payload : JSValue
  deriving DecidableEq, Repr

/-- The exceptions the embedded code can raise. -/
inductive JSError where
  /-- Realm rejects the string passed to `filtered`. -/
  | invalidPredicate
  /-- A property is read from, or written to, `undefined` or `null`. -/
  | typeError
  deriving DecidableEq, Repr

/-! ## The Realm query language, as far as `newQuote` and `toggleBookmark` use it -/

/-- The lexical terms of the filter strings built in `newQuote`:
`category = "c"`, `bookmarked = true`, `OR` and `AND`. -/
inductive Term where
  | categoryEq (c : String)
  | bookmarkedTrue
  | OR
  | AND
  deriving DecidableEq, Repr

/-- A comparison of the query language. -/
inductive Comparison where
  | categoryEq (c : String)
  | bookmarkedTrue
  deriving DecidableEq, Repr

/-- Realm's reading of a filter string: a disjunction of conjunctions of
comparisons (`AND` binds tighter than `OR`); `none` when the string is not a
predicate (it is empty, starts or ends with an operator, or two operators or two
comparisons are adjacent). -/
def parseQuery : List Term → Option (List (List Comparison))
  | [] => none
  | [Term.categoryEq c] => some [[Comparison.categoryEq c]]
  | [Term.bookmarkedTrue] => some [[Comparison.bookmarkedTrue]]
  | Term.categoryEq c :: Term.OR :: rest =>
    (parseQuery rest).map (fun gs => [Comparison.categoryEq c] :: gs)
  | Term.bookmarkedTrue :: Term.OR :: rest =>
    (parseQuery rest).map (fun gs => [Comparison.bookmarkedTrue] :: gs)
  | Term.categoryEq c :: Term.AND :: rest =>
    match parseQuery rest with
    | some (g :: gs) => some ((Comparison.categoryEq c :: g) :: gs)
    | _ => none
  | Term.bookmarkedTrue :: Term.AND :: rest =>
    match parseQuery rest with
    | some (g :: gs) => some ((Comparison.bookmarkedTrue :: g) :: gs)
    | _ => none
  | _ => none

/-- Truth of one comparison on a row. -/
def Comparison.holds (q : Quote) : Comparison → Bool
  | Comparison.categoryEq c => decide (q.category = c)
  | Comparison.bookmarkedTrue => q.bookmarked

/-- Truth of a parsed predicate on a row. -/
def queryHolds (gs : List (List Comparison)) (q : Quote) : Bool :=
  gs.any (fun g => g.all (fun c => c.holds q))

/-- A Realm results collection: live objects, each a row position and the row. -/
abbrev Results := List (Nat × Quote)

/-- The collection `realm.objects('Quote')`. -/
def objects (realm : Realm) : Results :=
  realm.enum

/-- The call `results.filtered(filterExpression)`: throws on an invalid
predicate, else keeps the matching rows in their order. -/
def filtered (results : Results) (filterExpression : List Term) :
    Except JSError Results :=
  match parseQuery filterExpression with
  | none => Except.error JSError.invalidPredicate
  | some gs => Except.ok (results.filter (fun r => queryHolds gs r.2))

/-- The call `results.sorted('displayedTimes')`: ascending, rows with equal
keys keeping their order. The order among equal keys is behaviour of the Realm
library, which is not part of this module; it is taken to be stable (Realm
compares the positions of the rows as the last key). -/
def sorted (results : Results) : Results :=
  results.insertionSort (fun a b => a.2.displayedTimes ≤ b.2.displayedTimes)

/-- The call `results.filtered('id = n')` of `toggleBookmark`. -/
def filteredById (results : Results) (n : Nat) : Results :=
  results.filter (fun r => decide (r.2.id = n))

/-! ## The thunks -/

/-- The object handed to `realm.create` in `loadQuotes`;
`quote.author || 'Unknown'` replaces a missing or empty author. -/
def createQuote (quote : QuoteData) (index : Nat) : Quote where
  quote := quote.quote
  author :=
    match quote.author with
    | none => "Unknown"
    | some a => if a = "" then "Unknown" else a
  displayedTimes := 0
  bookmarked := false
  id := index
  category := quote.category

/-- The loop `quotesData.quotes.forEach((quote, index) => realm.create(...))`,
from position `index` on. -/
def forEachCreate : List QuoteData → Nat → Realm → Realm
  | [], _, realm => realm
  | quote :: rest, index, realm =>
    forEachCreate rest (index + 1) (realm ++ [createQuote quote index])

/-- The thunk `loadQuotes`: the store after the write, and the dispatched action. -/
def loadQuotes (quotes : List QuoteData) (realm : Realm) : Realm × Action :=
  (forEachCreate quotes 0 realm, { type := LOAD_QUOTES, payload := JSValue.undefined })

/-- The reducer callback of `newQuote` building `filterExpression`. -/
def filterStep (categories : BoolObject) (accumulator : List Term)
    (currentValue : String) : List Term :=
  if truthy (categories.get currentValue) then
    if accumulator.length = 0 then [Term.categoryEq currentValue]
    else accumulator ++ [Term.OR, Term.categoryEq currentValue]
  else accumulator

/-- The value of `filterExpression` in `newQuote` at the call of `filtered`. -/
def filterExpression (state : State) : List Term :=
  let expr := state.categories.keys.foldl (filterStep state.categories) []
  if state.showFavorites then expr ++ [Term.AND, Term.bookmarkedTrue] else expr

/-- The value of `nextQuote` in `newQuote`:
`quotes.filtered(filterExpression).sorted('displayedTimes')[0]`,
`none` being `undefined`. -/
def nextQuote (state : State) (realm : Realm) : Except JSError (Option (Nat × Quote)) :=
  match filtered (objects realm) (filterExpression state) with
  | Except.error e => Except.error e
  | Except.ok results => Except.ok (sorted results).head?

/-- The thunk `newQuote`: the store after the write transaction and the
dispatched `NEXT_QUOTE` action, or the exception that ends it (no write is
committed and nothing is dispatched then). -/
def newQuote (state : State) (realm : Realm) : Except JSError (Realm × Action) :=
  match nextQuote state realm with
  | Except.error e => Except.error e
  | Except.ok none => Except.error JSError.typeError
  | Except.ok (some (row, q)) =>
    let shown : Quote := { q with displayedTimes := q.displayedTimes + 1 }
    Except.ok (realm.set row shown,
      { type := NEXT_QUOTE, payload := JSValue.nextQuotePayload shown shown.id })

/-- The action creator `changeBgType`. -/
def changeBgType (newBgType : JSValue) : Action :=
  { type := CHANGE_BG_TYPE, payload := newBgType }

/-- The action creator `toggleCategory`. -/
def toggleCategory (category : JSValue) : Action :=
  { type := TOGGLE_CATEGORY, payload := category }

/-- The action creator `selectAllCategories`. -/
def selectAllCategories : Action :=
  { type := SELECT_ALL_CATEGORIES, payload := JSValue.undefined }

/-- The action creator `toggleFavorites`. -/
def toggleFavorites : Action :=
  { type := TOGGLE_FAVORITES, payload := JSValue.undefined }

/-- The store part of the thunk `toggleBookmark`: the first row with the given
id has `bookmarked` negated; a `TypeError` when no row has that id. -/
def toggleBookmarkWrite (quoteToBookmark : Quote) (realm : Realm) : Except JSError Realm :=
  match (filteredById (objects realm) quoteToBookmark.id).head? with
  | none => Except.error JSError.typeError
  | some (row, quote) =>
    Except.ok (realm.set row { quote with bookmarked := !quote.bookmarked })

/-! ## The reducer -/

/-- The property key that a computed member `[v]` denotes. -/
def JSValue.toPropertyKey : JSValue → String
  | JSValue.undefined => "undefined"
  | JSValue.string s => s
  | JSValue.nextQuotePayload _ _ => "[object Object]"

/-- The function `QuotesReducer`; `random` is the value of `_.random(0, 1)`.
The default `state = initialState` serves Redux's first call and is supplied by
the caller. -/
def QuotesReducer (state : State) (action : Action) (random : Nat) :
    Except JSError State :=
  if action.type = LOAD_QUOTES then
    Except.ok { state with quotesLoaded := true }
  else if action.type = NEXT_QUOTE then
    match action.payload with
    | JSValue.undefined => Except.error JSError.typeError
    | JSValue.string _ =>
      Except.ok { state with
        currentQuote := none
        isDarkBg := if state.bgType = BG_TYPES.BG_RANDOM then decide (random ≠ 0)
          else state.isDarkBg }
    | JSValue.nextQuotePayload q _ =>
      Except.ok { state with
        currentQuote := some q
        isDarkBg := if state.bgType = BG_TYPES.BG_RANDOM then decide (random ≠ 0)
          else state.isDarkBg }
  else if action.type = TOGGLE_BOOKMARK then
    match state.currentQuote with
    | none => Except.error JSError.typeError
    | some q =>
      Except.ok { state with currentQuote := some { q with bookmarked := !q.bookmarked } }
  else if action.type = CHANGE_BG_TYPE then
    Except.ok { state with
      bgType := action.payload
      isDarkBg := if action.payload = BG_TYPES.BG_WHITE then false
        else (if action.payload = BG_TYPES.BG_RANDOM then state.isDarkBg else true) }
  else if action.type = TOGGLE_CATEGORY then
    Except.ok { state with
      categories := state.categories.set action.payload.toPropertyKey
        (!truthy (state.categories.get action.payload.toPropertyKey)) }
  else if action.type = SELECT_ALL_CATEGORIES then
    Except.ok { state with
      categories :=
        [("inspire", true), ("management", true), ("sports", true), ("life", true),
         ("funny", true), ("love", true), ("art", true), ("students", true)] }
  else if action.type = TOGGLE_FAVORITES then
    Except.ok { state with showFavorites := !state.showFavorites }
  else
    Except.ok state

/-- The thunk `toggleBookmark`: `TOGGLE_BOOKMARK` is dispatched first, then the
store is written. -/
def toggleBookmark (quoteToBookmark : Quote) (state : State) (realm : Realm)
    (random : Nat) : Except JSError (State × Realm) :=
  match QuotesReducer state { type := TOGGLE_BOOKMARK, payload := JSValue.undefined } random with
  | Except.error e => Except.error e
  | Except.ok state1 =>
    match toggleBookmarkWrite quoteToBookmark realm with
    | Except.error e => Except.error e
    | Except.ok realm1 => Except.ok (state1, realm1)

/-- One run of `newQuote` with its dispatch fed to `QuotesReducer`. -/
def newQuoteDispatch (random : Nat) (sr : State × Realm) : Except JSError (State × Realm) :=
  match newQuote sr.1 sr.2 with
  | Except.error e => Except.error e
  | Except.ok (realm1, action) =>
    match QuotesReducer sr.1 action random with
    | Except.error e => Except.error e
    | Except.ok state1 => Except.ok (state1, realm1)

/-- Consecutive runs of `newQuote`, one per random draw in the list. -/
def newQuoteRuns : List Nat → State × Realm → Except JSError (State × Realm)
  | [], sr => Except.ok sr
  | random :: rest, sr =>
    match newQuoteDispatch random sr with
    | Except.error e => Except.error e
    | Except.ok sr1 => newQuoteRuns rest sr1

/-! ## Auxiliary notions used in the statements -/

/-- The keys of `categories` whose value is truthy, in key order. -/
def activeCategories (categories : BoolObject) : List String :=
  categories.keys.filter (fun k => truthy (categories.get k))

/-- The terms `category = "c1" OR ... OR category = "cn"`. -/
def orTerms : List String → List Term
  | [] => []
  | [c] => [Term.categoryEq c]
  | c :: c' :: rest => Term.categoryEq c :: Term.OR :: orTerms (c' :: rest)

/-- The predicate that Realm reads from
`category = "c1" OR ... OR category = "cn" AND bookmarked = true`. -/
def favoritesGroups : List String → List (List Comparison)
  | [] => []
  | [c] => [[Comparison.categoryEq c, Comparison.bookmarkedTrue]]
  | c :: c' :: rest => [Comparison.categoryEq c] :: favoritesGroups (c' :: rest)

/-- The filter of the specification: the category of the quote is active and,
in favourites mode, the quote is bookmarked. -/
def matchesPreferences (state : State) (q : Quote) : Prop :=
  state.categories.get q.category = some true ∧
    (state.showFavorites = true → q.bookmarked = true)

/-- The rows whose category is active, in store order. -/
def activeRows (state : State) (realm : Realm) : List Quote :=
  realm.filter (fun q => truthy (state.categories.get q.category))

/-- The store in which, among the rows satisfying `p`, the first `b` have been
shown `a + 1` times and the others `a` times. -/
def roundRobin (p : Quote → Bool) (a : Nat) : Nat → Realm → Realm
  | _, [] => []
  | b, q :: rest =>
    if p q then
      match b with
      | 0 => { q with displayedTimes := a } :: roundRobin p a 0 rest
      | b + 1 => { q with displayedTimes := a + 1 } :: roundRobin p a b rest
    else q :: roundRobin p a b rest

/-- The actions that the action creators and thunks of the module emit: one of
the seven action types, `NEXT_QUOTE` carrying a snapshot payload. -/
def Action.declared (a : Action) : Bool :=
  decide (a.type = LOAD_QUOTES) ||
  (decide (a.type = NEXT_QUOTE) &&
    (match a.payload with
     | JSValue.nextQuotePayload _ _ => true
     | _ => false)) ||
  decide (a.type = TOGGLE_BOOKMARK) ||
  decide (a.type = CHANGE_BG_TYPE) ||
  decide (a.type = TOGGLE_CATEGORY) ||
  decide (a.type = SELECT_ALL_CATEGORIES) ||
  decide (a.type = TOGGLE_FAVORITES)

/-! ## Concrete stores and states used as examples -/

/-- The two-record dataset of the specification's example. -/
def exampleQuotes : List QuoteData :=
  [{ quote := "A", author := some "X", category := "inspire" },
   { quote := "B", author := some "Y", category := "funny" }]

/-- The store seeded from `exampleQuotes`. -/
def exampleRealm : Realm :=
  (loadQuotes exampleQuotes []).1

/-- The row of quote `A` after it was shown `n` times. -/
def exampleShownA (n : Nat) : Quote :=
  { quote := "A", author := "X", displayedTimes := n, bookmarked := false, id := 0,
    category := "inspire" }

/-- The store and action that `newQuote initialState exampleRealm` produces. -/
def exampleShown : Realm × Action :=
  ([exampleShownA 1,
    { quote := "B", author := "Y", displayedTimes := 0, bookmarked := false, id := 1,
      category := "funny" }],
   { type := NEXT_QUOTE, payload := JSValue.nextQuotePayload (exampleShownA 1) 0 })

/-- The preferences after `inspire` (initially on) and `management` are active. -/
def twoCategoriesState : State :=
  { initialState with
    categories :=
      [("inspire", true), ("management", true), ("sports", false), ("life", false),
       ("funny", false), ("love", false), ("art", false), ("students", false)] }

/-- The preferences `twoCategoriesState` in favourites mode. -/
def twoCategoriesFavoritesState : State :=
  { twoCategoriesState with showFavorites := true }

/-- The preferences with no active category. -/
def noCategoryState : State :=
  { initialState with
    categories :=
      [("inspire", false), ("management", false), ("sports", false), ("life", false),
       ("funny", false), ("love", false), ("art", false), ("students", false)] }

/-- A dataset with three quotes of category `inspire` and one of another. -/
def tieQuotes : List QuoteData :=
  [{ quote := "D", author := some "W", category := "inspire" },
   { quote := "B", author := some "Y", category := "funny" },
   { quote := "A", author := some "X", category := "inspire" },
   { quote := "C", author := some "Z", category := "inspire" }]

/-- The store seeded from `tieQuotes` after one `newQuote` under the initial
preferences: `D` was shown once, `A` and `C` never. -/
def tieRealm : Realm :=
  [{ quote := "D", author := "W", displayedTimes := 1, bookmarked := false, id := 0,
     category := "inspire" },
   { quote := "B", author := "Y", displayedTimes := 0, bookmarked := false, id := 1,
     category := "funny" },
   { quote := "A", author := "X", displayedTimes := 0, bookmarked := false, id := 2,
     category := "inspire" },
   { quote := "C", author := "Z", displayedTimes := 0, bookmarked := false, id := 3,
     category := "inspire" }]

/-- The rows of `tieRealm` that `filtered` returns under the initial preferences. -/
def tieFiltered : Results :=
  [(0, { quote := "D", author := "W", displayedTimes := 1, bookmarked := false, id := 0,
         category := "inspire" }),
   (2, { quote := "A", author := "X", displayedTimes := 0, bookmarked := false, id := 2,
         category := "inspire" }),
   (3, { quote := "C", author := "Z", displayedTimes := 0, bookmarked := false, id := 3,
         category := "inspire" })]

/-- The store and action that `newQuote initialState tieRealm` produces: `A`
(id 2) is shown. -/
def tieShown : Realm × Action :=
  ([{ quote := "D", author := "W", displayedTimes := 1, bookmarked := false, id := 0,
      category := "inspire" },
    { quote := "B", author := "Y", displayedTimes := 0, bookmarked := false, id := 1,
      category := "funny" },
    { quote := "A", author := "X", displayedTimes := 1, bookmarked := false, id := 2,
      category := "inspire" },
    { quote := "C", author := "Z", displayedTimes := 0, bookmarked := false, id := 3,
      category := "inspire" }],
   { type := NEXT_QUOTE,
     payload := JSValue.nextQuotePayload
       { quote := "A", author := "X", displayedTimes := 1, bookmarked := false, id := 2,
         category := "inspire" } 2 })

/-! ## Sequences of dispatches and of operations -/

/-- The eight keys of `initialState.categories`, in their order. -/
def categoryNames : List String :=
  ["inspire", "management", "sports", "life", "funny", "love", "art", "students"]

/-- Successive dispatches to `QuotesReducer`, each action paired with the value
that `_.random(0, 1)` takes during it; the run ends at the first exception. -/
def dispatchAll : List (Action × Nat) → State → Except JSError State
  | [], state => Except.ok state
  | (action, random) :: rest, state =>
    match QuotesReducer state action random with
    | Except.error e => Except.error e
    | Except.ok state1 => dispatchAll rest state1

/-- What the application does to the preferences and the store after seeding,
each taken as a whole: the thunk `newQuote` with its promise callback, the thunk
`toggleBookmark` called on the current quote with its promise callback, and the
four pure preference actions. -/
inductive Operation where
  | newQuote
  | toggleBookmark
  | changeBgType (newBgType : JSValue)
  | toggleCategory (category : JSValue)
  | selectAllCategories
  | toggleFavorites
  deriving DecidableEq, Repr

/-- A pure preference action dispatched to the reducer; the store is untouched. -/
def dispatchPure (action : Action) (random : Nat) (sr : State × Realm) :
    Except JSError (State × Realm) :=
  match QuotesReducer sr.1 action random with
  | Except.error e => Except.error e
  | Except.ok state1 => Except.ok (state1, sr.2)

/-- One operation run to completion: for a thunk, its call and then its promise
callback with nothing in between (`occurAll_eventsOf` relates it to the events
of which it consists). `toggleBookmark` receives `state.currentQuote`; with no
current quote its dispatch already throws. Calls that overlap are not runs of
`perform`; they are runs of `occur`. -/
def perform (op : Operation) (random : Nat) (sr : State × Realm) :
    Except JSError (State × Realm) :=
  match op with
  | Operation.newQuote => newQuoteDispatch random sr
  | Operation.toggleBookmark =>
    match sr.1.currentQuote with
    | none => Except.error JSError.typeError
    | some q => toggleBookmark q sr.1 sr.2 random
  | Operation.changeBgType newBgType => dispatchPure (changeBgType newBgType) random sr
  | Operation.toggleCategory category => dispatchPure (toggleCategory category) random sr
  | Operation.selectAllCategories => dispatchPure selectAllCategories random sr
  | Operation.toggleFavorites => dispatchPure toggleFavorites random sr

/-- A sequence of operations, each completed before the next one starts and
each with its random draw; the run ends at the first exception. -/
def performAll : List (Operation × Nat) → State × Realm → Except JSError (State × Realm)
  | [], sr => Except.ok sr
  | (op, random) :: rest, sr =>
    match perform op random sr with
    | Except.error e => Except.error e
    | Except.ok sr1 => performAll rest sr1

/-- A promise callback (the function passed to `Realm.open(...).then`) that a
thunk has registered and that has not run yet. -/
inductive Callback where
  /-- The callback of `newQuote`; `state` is what `getState()` returned when the
  thunk was called. -/
  | newQuote (state : State)
  /-- The callback of `toggleBookmark(quoteToBookmark)`. -/
  | toggleBookmark (quoteToBookmark : Quote)
  deriving DecidableEq, Repr

/-- The running application: the preferences, the store, and the registered
callbacks in the order of their registration. -/
structure App where
  state : State
  realm : Realm
  callbacks : List Callback
  deriving DecidableEq, Repr

/-- What happens in the application, one step at a time: a thunk is called
(its synchronous part runs and its callback is registered), a registered
callback runs, or a pure preference action is dispatched. -/
inductive Event where
  | callNewQuote
  | callToggleBookmark
  | resolve (i : Nat)
  | changeBgType (newBgType : JSValue)
  | toggleCategory (category : JSValue)
  | selectAllCategories
  | toggleFavorites
  deriving DecidableEq, Repr

/-- The body of a registered callback, run on the preferences and the store as
they are when it runs. The callback of `newQuote` filters with the state read at
call time, writes the store and dispatches `NEXT_QUOTE`; the callback of
`toggleBookmark` writes the store. -/
def runCallback (c : Callback) (random : Nat) (state : State) (realm : Realm) :
    Except JSError (State × Realm) :=
  match c with
  | Callback.newQuote read =>
    match newQuote read realm with
    | Except.error e => Except.error e
    | Except.ok (realm1, action) =>
      match QuotesReducer state action random with
      | Except.error e => Except.error e
      | Except.ok state1 => Except.ok (state1, realm1)
  | Callback.toggleBookmark quoteToBookmark =>
    match toggleBookmarkWrite quoteToBookmark realm with
    | Except.error e => Except.error e
    | Except.ok realm1 => Except.ok (state, realm1)

/-- A pure preference action dispatched in the running application. -/
def App.dispatch (app : App) (action : Action) (random : Nat) : Except JSError App :=
  match QuotesReducer app.state action random with
  | Except.error e => Except.error e
  | Except.ok state1 => Except.ok { app with state := state1 }

/-- One event. `callNewQuote` reads the state and registers the callback;
`callToggleBookmark` is `toggleBookmark(state.currentQuote)`: it dispatches
`TOGGLE_BOOKMARK` at once and registers the store write; `resolve i` runs the
`i`-th registered callback (nothing happens when there is none). -/
def occur (e : Event) (random : Nat) (app : App) : Except JSError App :=
  match e with
  | Event.callNewQuote =>
    Except.ok { app with callbacks := app.callbacks ++ [Callback.newQuote app.state] }
  | Event.callToggleBookmark =>
    match QuotesReducer app.state
        { type := TOGGLE_BOOKMARK, payload := JSValue.undefined } random with
    | Except.error e => Except.error e
    | Except.ok state1 =>
      match app.state.currentQuote with
      | none => Except.error JSError.typeError
      | some q =>
        Except.ok
          { state := state1, realm := app.realm,
            callbacks := app.callbacks ++ [Callback.toggleBookmark q] }
  | Event.resolve i =>
    match app.callbacks[i]? with
    | none => Except.ok app
    | some c =>
      match runCallback c random app.state app.realm with
      | Except.error e => Except.error e
      | Except.ok (state1, realm1) =>
        Except.ok { state := state1, realm := realm1, callbacks := app.callbacks.eraseIdx i }
  | Event.changeBgType newBgType => app.dispatch (changeBgType newBgType) random
  | Event.toggleCategory category => app.dispatch (toggleCategory category) random
  | Event.selectAllCategories => app.dispatch selectAllCategories random
  | Event.toggleFavorites => app.dispatch toggleFavorites random

/-- A sequence of events, each with the random draw of its dispatch; the run
ends at the first exception. -/
def occurAll : List (Event × Nat) → App → Except JSError App
  | [], app => Except.ok app
  | (e, random) :: rest, app =>
    match occur e random app with
    | Except.error e => Except.error e
    | Except.ok app1 => occurAll rest app1

/-- The events of one operation run to completion: a thunk call followed at
once by its callback, or the single dispatch of a pure action. -/
def eventsOf (x : Operation × Nat) : List (Event × Nat) :=
  match x.1 with
  | Operation.newQuote => [(Event.callNewQuote, x.2), (Event.resolve 0, x.2)]
  | Operation.toggleBookmark => [(Event.callToggleBookmark, x.2), (Event.resolve 0, x.2)]
  | Operation.changeBgType newBgType => [(Event.changeBgType newBgType, x.2)]
  | Operation.toggleCategory category => [(Event.toggleCategory category, x.2)]
  | Operation.selectAllCategories => [(Event.selectAllCategories, x.2)]
  | Operation.toggleFavorites => [(Event.toggleFavorites, x.2)]

/-- The event sequences without overlap: every thunk call is followed at once
by its callback. -/
def sequentialEvents : List (Operation × Nat) → List (Event × Nat)
  | [] => []
  | x :: rest => eventsOf x ++ sequentialEvents rest

/-- The start of the application on a store seeded from `quotes`. -/
def App.seeded (quotes : List QuoteData) : App :=
  { state := initialState, realm := (loadQuotes quotes []).1, callbacks := [] }

/-- An overlapping run: a quote is shown; then `newQuote` is called and, before
its callback runs, `toggleBookmark` is called on the current quote; then the two
callbacks run in the order of their registration. -/
def overlapEvents : List (Event × Nat) :=
  [(Event.callNewQuote, 0), (Event.resolve 0, 0), (Event.callNewQuote, 0),
   (Event.callToggleBookmark, 0), (Event.resolve 0, 0), (Event.resolve 0, 0)]

/-- The application that `overlapEvents` reaches from `App.seeded exampleQuotes`. -/
def overlapApp : App :=
  { state := { initialState with currentQuote := some (exampleShownA 2) }
    realm :=
      [{ exampleShownA 2 with bookmarked := true },
       { quote := "B", author := "Y", displayedTimes := 0, bookmarked := false, id := 1,
         category := "funny" }]
    callbacks := [] }

/-- A dataset whose only record has an empty author. -/
def emptyAuthorQuotes : List QuoteData :=
  [{ quote := "A", author := some "", category := "inspire" }]

/-- The store `exampleRealm` after quote `A` was bookmarked. -/
def exampleBookmarked : Realm :=
  [{ quote := "A", author := "X", displayedTimes := 0, bookmarked := true, id := 0,
     category := "inspire" },
   { quote := "B", author := "Y", displayedTimes := 0, bookmarked := false, id := 1,
     category := "funny" }]

/-- A run of dispatches that switches to the black background and then shows
a quote. -/
def exampleBlackActions : List (Action × Nat) :=
  [(changeBgType BG_TYPES.BG_BLACK, 0),
   ({ type := NEXT_QUOTE, payload := JSValue.nextQuotePayload (exampleShownA 1) 0 }, 0)]

/-- The state that `exampleBlackActions` reaches from `initialState`. -/
def exampleBlackState : State :=
  { initialState with
    currentQuote := some (exampleShownA 1)
    isDarkBg := true
    bgType := BG_TYPES.BG_BLACK }

/-- A run of operations: show a quote, bookmark it, activate a category. -/
def exampleOperations : List (Operation × Nat) :=
  [(Operation.newQuote, 1), (Operation.toggleBookmark, 0),
   (Operation.toggleCategory (JSValue.string "funny"), 0)]

/-- The preferences and the store that `exampleOperations` reaches from
`initialState` and `exampleRealm`. -/
def exampleOperated : State × Realm :=
  ({ initialState with
      currentQuote := some { exampleShownA 1 with bookmarked := true }
      isDarkBg := true
      categories :=
        [("inspire", true), ("management", false), ("sports", false), ("life", false),
         ("funny", true), ("love", false), ("art", false), ("students", false)] },
   [{ exampleShownA 1 with bookmarked := true },
    { quote := "B", author := "Y", displayedTimes := 0, bookmarked := false, id := 1,
      category := "funny" }])

/-! ## Objects with boolean values -/

theorem get_eq_some_mem_keys (o : BoolObject) (k : String) (v : Bool)
    (h : o.get k = some v) : k ∈ o.keys := by
  induction o with
  | nil => simp [BoolObject.get] at h
  | cons kv rest ih =>
    obtain ⟨k', v'⟩ := kv
    by_cases hk : k' = k
    · simp [BoolObject.keys, hk]
    · simp only [BoolObject.get, hk, if_false] at h
      have := ih h
      simp only [BoolObject.keys, List.map_cons, List.mem_cons] at this ⊢
      exact Or.inr this

theorem truthy_eq_true_iff (v : Option Bool) : truthy v = true ↔ v = some true := by
  cases v with
  | none => simp [truthy]
  | some b => simp [truthy]

theorem mem_activeCategories (categories : BoolObject) (k : String) :
    k ∈ activeCategories categories ↔ categories.get k = some true := by
  unfold activeCategories
  rw [List.mem_filter, truthy_eq_true_iff]
  constructor
  · exact fun h => h.2
  · exact fun h => ⟨get_eq_some_mem_keys _ _ _ h, h⟩

theorem get_of_all_false (o : BoolObject) (h : ∀ kv ∈ o, kv.2 = false) (k : String) :
    truthy (o.get k) = false := by
  induction o with
  | nil => simp [BoolObject.get, truthy]
  | cons kv rest ih =>
    obtain ⟨k', v'⟩ := kv
    have hv : v' = false := h (k', v') (List.mem_cons_self _ _)
    by_cases hk : k' = k
    · simp [BoolObject.get, hk, hv, truthy]
    · simp only [BoolObject.get, hk, if_false]
      exact ih (fun kv hkv => h kv (List.mem_cons_of_mem _ hkv))

/-! ## The filter expression and its reading -/

theorem orTerms_length_eq_zero (l : List String) : (orTerms l).length = 0 ↔ l = [] := by
  match l with
  | [] => simp [orTerms]
  | [c] => simp [orTerms]
  | c :: c' :: rest => simp [orTerms]

theorem orTerms_append_singleton (l : List String) (c : String) :
    orTerms (l ++ [c]) =
      if (orTerms l).length = 0 then [Term.categoryEq c]
      else orTerms l ++ [Term.OR, Term.categoryEq c] := by
  induction l with
  | nil => simp [orTerms]
  | cons a rest ih =>
    cases rest with
    | nil => simp [orTerms]
    | cons b rest' =>
      have h1 : (orTerms (b :: rest')).length ≠ 0 := by
        rw [Ne, orTerms_length_eq_zero]; simp
      rw [if_neg h1] at ih
      simp only [List.cons_append] at ih ⊢
      simp [orTerms, ih]

theorem foldl_filterStep (categories : BoolObject) (ks done : List String) :
    ks.foldl (filterStep categories) (orTerms done) =
      orTerms (done ++ ks.filter (fun k => truthy (categories.get k))) := by
  induction ks generalizing done with
  | nil => simp
  | cons k rest ih =>
    rw [List.foldl_cons]
    by_cases hk : truthy (categories.get k) = true
    · have : filterStep categories (orTerms done) k = orTerms (done ++ [k]) := by
        rw [orTerms_append_singleton]; simp [filterStep, hk]
      rw [this, ih]
      simp [List.filter_cons, hk]
    · have : filterStep categories (orTerms done) k = orTerms done := by
        simp [filterStep, hk]
      rw [this, ih]
      simp [List.filter_cons, hk]

theorem filterExpression_eq (state : State) :
    filterExpression state =
      if state.showFavorites then
        orTerms (activeCategories state.categories) ++ [Term.AND, Term.bookmarkedTrue]
      else orTerms (activeCategories state.categories) := by
  have h := foldl_filterStep state.categories state.categories.keys []
  simp only [orTerms, List.nil_append] at h
  simp only [filterExpression, h, activeCategories]

theorem parseQuery_orTerms (c : String) (rest : List String) :
    parseQuery (orTerms (c :: rest)) =
      some ((c :: rest).map (fun k => [Comparison.categoryEq k])) := by
  induction rest generalizing c with
  | nil => simp [orTerms, parseQuery]
  | cons c' rest ih =>
    simp only [orTerms, parseQuery, ih c']
    simp

theorem parseQuery_orTerms_favorites (c : String) (rest : List String) :
    parseQuery (orTerms (c :: rest) ++ [Term.AND, Term.bookmarkedTrue]) =
      some (favoritesGroups (c :: rest)) := by
  induction rest generalizing c with
  | nil => simp [orTerms, parseQuery, favoritesGroups]
  | cons c' rest ih =>
    simp only [orTerms, List.cons_append, parseQuery, favoritesGroups]
    rw [List.append_eq, ih c']
    simp

theorem queryHolds_categories (l : List String) (q : Quote) :
    queryHolds (l.map (fun k => [Comparison.categoryEq k])) q = decide (q.category ∈ l) := by
  induction l with
  | nil => simp [queryHolds]
  | cons c rest ih =>
    simp only [queryHolds, List.map_cons, List.any_cons, List.all_cons, List.all_nil,
      Bool.and_true] at ih ⊢
    rw [ih]
    simp [Comparison.holds]

theorem queryHolds_favoritesGroups_category (l : List String) (q : Quote)
    (h : queryHolds (favoritesGroups l) q = true) : q.category ∈ l := by
  induction l with
  | nil => simp [favoritesGroups, queryHolds] at h
  | cons c rest ih =>
    cases rest with
    | nil =>
      simp [favoritesGroups, queryHolds, Comparison.holds] at h
      simp [h.1]
    | cons c' rest' =>
      simp only [favoritesGroups, queryHolds, List.any_cons, Bool.or_eq_true] at h
      rcases h with h | h
      · simp [Comparison.holds] at h
        simp [h]
      · exact List.mem_cons_of_mem _ (ih h)

theorem queryHolds_favoritesGroups_of_bookmarked (l : List String) (q : Quote)
    (hc : q.category ∈ l) (hb : q.bookmarked = true) :
    queryHolds (favoritesGroups l) q = true := by
  induction l with
  | nil => simp at hc
  | cons c rest ih =>
    cases rest with
    | nil =>
      simp at hc
      simp [favoritesGroups, queryHolds, Comparison.holds, hc, hb]
    | cons c' rest' =>
      simp only [favoritesGroups, queryHolds, List.any_cons, Bool.or_eq_true]
      rcases List.mem_cons.1 hc with h | h
      · left
        simp [Comparison.holds, h]
      · right
        exact ih h

theorem parseQuery_filterExpression_eq_none (state : State)
    (h : activeCategories state.categories = []) :
    parseQuery (filterExpression state) = none := by
  rw [filterExpression_eq, h]
  cases state.showFavorites <;> simp [orTerms, parseQuery]

/-- What Realm reads from the filter expression of `newQuote`: a row it accepts
has an active category; it accepts every row that the preferences select; and
outside favourites mode it accepts exactly the rows of active category. -/
theorem parseQuery_filterExpression (state : State) (gs : List (List Comparison))
    (h : parseQuery (filterExpression state) = some gs) :
    (∀ q, queryHolds gs q = true → state.categories.get q.category = some true) ∧
    (∀ q, matchesPreferences state q → queryHolds gs q = true) ∧
    (state.showFavorites = false →
      ∀ q, queryHolds gs q = truthy (state.categories.get q.category)) := by
  rw [filterExpression_eq] at h
  cases hl : activeCategories state.categories with
  | nil =>
    rw [hl] at h
    cases hf : state.showFavorites <;> simp [hf, orTerms, parseQuery] at h
  | cons c rest =>
    rw [hl] at h
    cases hf : state.showFavorites with
    | false =>
      simp only [hf, Bool.false_eq_true, if_false, parseQuery_orTerms] at h
      have hgs := Option.some.inj h
      subst hgs
      have key : ∀ q, queryHolds ((c :: rest).map (fun k => [Comparison.categoryEq k])) q
          = truthy (state.categories.get q.category) := by
        intro q
        rw [queryHolds_categories, ← hl]
        by_cases hq : state.categories.get q.category = some true
        · rw [decide_eq_true ((mem_activeCategories _ _).2 hq), hq]; rfl
        · rw [decide_eq_false (fun hm => hq ((mem_activeCategories _ _).1 hm))]
          cases ht : truthy (state.categories.get q.category) with
          | false => rfl
          | true => exact absurd ((truthy_eq_true_iff _).1 ht) hq
      refine ⟨?_, ?_, fun _ => key⟩
      · intro q hq
        rw [key] at hq
        exact (truthy_eq_true_iff _).1 hq
      · intro q hq
        rw [key]
        exact (truthy_eq_true_iff _).2 hq.1
    | true =>
      simp only [hf, if_true, parseQuery_orTerms_favorites] at h
      have hgs := Option.some.inj h
      subst hgs
      refine ⟨?_, ?_, fun hc => by simp at hc⟩
      · intro q hq
        have := queryHolds_favoritesGroups_category _ _ hq
        rw [← hl] at this
        exact (mem_activeCategories _ _).1 this
      · intro q hq
        apply queryHolds_favoritesGroups_of_bookmarked
        · rw [← hl]; exact (mem_activeCategories _ _).2 hq.1
        · exact hq.2 hf

/-! ## The head of a stably sorted collection -/

theorem head?_orderedInsert {α : Type} (r : α → α → Prop) [DecidableRel r] (a : α)
    (l : List α) :
    (l.orderedInsert r a).head? =
      match l.head? with
      | none => some a
      | some b => if r a b then some a else some b := by
  cases l with
  | nil => simp
  | cons b rest =>
    simp only [List.orderedInsert, List.head?_cons]
    split <;> simp

theorem sorted_cons (x : Nat × Quote) (l : Results) :
    sorted (x :: l) =
      (sorted l).orderedInsert (fun a b => a.2.displayedTimes ≤ b.2.displayedTimes) x := rfl

theorem mem_sorted (x : Nat × Quote) (l : Results) : x ∈ sorted l ↔ x ∈ l :=
  List.mem_insertionSort _

theorem head?_sorted_eq_none (l : Results) : (sorted l).head? = none ↔ l = [] := by
  rw [List.head?_eq_none_iff]
  constructor
  · intro h
    have := List.length_insertionSort (fun a b : Nat × Quote =>
      a.2.displayedTimes ≤ b.2.displayedTimes) l
    unfold sorted at h
    rw [h] at this
    exact List.length_eq_zero.1 this.symm
  · intro h; subst h; rfl

/-- The first row of `sorted` is least in the order (displayedTimes, row position). -/
theorem head?_sorted_least (l : Results) (hp : l.Pairwise (fun a b => a.1 < b.1))
    (x : Nat × Quote) (h : (sorted l).head? = some x) :
    x ∈ l ∧ ∀ y ∈ l, x.2.displayedTimes < y.2.displayedTimes ∨
      (x.2.displayedTimes = y.2.displayedTimes ∧ x.1 ≤ y.1) := by
  induction l generalizing x with
  | nil => simp [sorted] at h
  | cons a rest ih =>
    rw [sorted_cons, head?_orderedInsert] at h
    have hp' := List.pairwise_cons.1 hp
    cases hr : (sorted rest).head? with
    | none =>
      rw [hr] at h
      have hx : a = x := Option.some.inj h
      subst hx
      have : rest = [] := (head?_sorted_eq_none rest).1 hr
      subst this
      simp
    | some b =>
      rw [hr] at h
      obtain ⟨hb, hmin⟩ := ih hp'.2 b hr
      by_cases hab : a.2.displayedTimes ≤ b.2.displayedTimes
      · simp only [hab, if_true] at h
        have hx : a = x := Option.some.inj h
        subst hx
        refine ⟨List.mem_cons_self _ _, ?_⟩
        intro y hy
        rcases List.mem_cons.1 hy with hy | hy
        · subst hy; right; exact ⟨rfl, le_refl _⟩
        · have h1 := hp'.1 y hy
          rcases hmin y hy with h2 | h2
          · left; omega
          · rcases Nat.lt_or_eq_of_le hab with h3 | h3
            · left; omega
            · right; exact ⟨by omega, by omega⟩
      · simp only [hab, if_false] at h
        have hx : b = x := Option.some.inj h
        subst hx
        refine ⟨List.mem_cons_of_mem _ hb, ?_⟩
        intro y hy
        rcases List.mem_cons.1 hy with hy | hy
        · subst hy; left; omega
        · exact hmin y hy

theorem pairwise_enumFrom (n : Nat) (l : Realm) :
    (l.enumFrom n).Pairwise (fun a b => a.1 < b.1) := by
  induction l generalizing n with
  | nil => simp
  | cons q rest ih =>
    rw [List.enumFrom_cons, List.pairwise_cons]
    refine ⟨?_, ih (n + 1)⟩
    intro y hy
    have := List.le_fst_of_mem_enumFrom hy
    simp only
    omega

/-! ## What `newQuote` selects -/

/-- A successful `newQuote` picked a row that the parsed filter accepts and that
is least in the order (displayedTimes, row position) among the accepted rows,
wrote the incremented row back in place, and dispatched its snapshot. -/
theorem newQuote_selects (state : State) (realm realm1 : Realm) (action : Action)
    (h : newQuote state realm = Except.ok (realm1, action)) :
    ∃ gs row q, parseQuery (filterExpression state) = some gs ∧
      realm[row]? = some q ∧ queryHolds gs q = true ∧
      (∀ j q', realm[j]? = some q' → queryHolds gs q' = true →
        q.displayedTimes < q'.displayedTimes ∨
          (q.displayedTimes = q'.displayedTimes ∧ row ≤ j)) ∧
      realm1 = realm.set row { q with displayedTimes := q.displayedTimes + 1 } ∧
      action = { type := NEXT_QUOTE,
                 payload := JSValue.nextQuotePayload
                   { q with displayedTimes := q.displayedTimes + 1 } q.id } := by
  unfold newQuote nextQuote filtered at h
  cases hp : parseQuery (filterExpression state) with
  | none => simp [hp] at h
  | some gs =>
    simp only [hp] at h
    cases hh : (sorted ((objects realm).filter (fun r => queryHolds gs r.2))).head? with
    | none => simp [hh] at h
    | some x =>
      obtain ⟨row, q⟩ := x
      simp only [hh, Except.ok.injEq, Prod.mk.injEq] at h
      have hpw : ((objects realm).filter (fun r => queryHolds gs r.2)).Pairwise
          (fun a b => a.1 < b.1) :=
        List.Pairwise.filter _ (pairwise_enumFrom 0 realm)
      obtain ⟨hmem, hmin⟩ := head?_sorted_least _ hpw _ hh
      rw [List.mem_filter] at hmem
      refine ⟨gs, row, q, rfl, ?_, hmem.2, ?_, h.1.symm, h.2.symm⟩
      · exact List.mk_mem_enum_iff_getElem?.1 hmem.1
      · intro j q' hj hq'
        have : (j, q') ∈ (objects realm).filter (fun r => queryHolds gs r.2) := by
          rw [List.mem_filter]
          exact ⟨List.mk_mem_enum_iff_getElem?.2 hj, hq'⟩
        exact hmin _ this

/-- The category half of the filter: the quote that `newQuote` selects has a
category whose value in `state.categories` is `true`. -/
theorem newQuote_category_active (state : State) (realm realm1 : Realm) (action : Action)
    (h : newQuote state realm = Except.ok (realm1, action)) :
    ∃ q i, action.payload = JSValue.nextQuotePayload q i ∧
      state.categories.get q.category = some true := by
  obtain ⟨gs, row, q, hp, _, hq, _, _, ha⟩ := newQuote_selects state realm realm1 action h
  refine ⟨{ q with displayedTimes := q.displayedTimes + 1 }, q.id, by rw [ha], ?_⟩
  exact (parseQuery_filterExpression state gs hp).1 q hq

/-! ## Claims on `newQuote` -/

/-- C1 (the code departs from the claim). With two active categories and
favourites mode on, a state reached from `initialState` by `TOGGLE_CATEGORY` and
`TOGGLE_FAVORITES`, `newQuote` on the seeded example store selects quote `A`,
whose `bookmarked` flag is `false`: the appended `AND bookmarked = true` is read
with the last category only. -/
theorem newQuote_favorites_selects_unbookmarked :
    QuotesReducer initialState (toggleCategory (JSValue.string "management")) 0
      = Except.ok twoCategoriesState ∧
    QuotesReducer twoCategoriesState toggleFavorites 0
      = Except.ok twoCategoriesFavoritesState ∧
    twoCategoriesFavoritesState.showFavorites = true ∧
    parseQuery (filterExpression twoCategoriesFavoritesState)
      = some [[Comparison.categoryEq "inspire"],
              [Comparison.categoryEq "management", Comparison.bookmarkedTrue]] ∧
    newQuote twoCategoriesFavoritesState exampleRealm = Except.ok exampleShown ∧
    (exampleShownA 1).bookmarked = false :=
  ⟨rfl, rfl, rfl, rfl, rfl, rfl⟩

/-- C2. Least-shown selection: when `newQuote` selects the row `q`, no quote of
the store that the preferences select (active category and, in favourites mode,
bookmarked) has `displayedTimes` strictly below that of `q` before the
increment. -/
theorem newQuote_least_shown (state : State) (realm realm1 : Realm) (action : Action)
    (h : newQuote state realm = Except.ok (realm1, action)) :
    ∃ (row : Nat) (q : Quote), realm[row]? = some q ∧
      action.payload = JSValue.nextQuotePayload
        { q with displayedTimes := q.displayedTimes + 1 } q.id ∧
      ∀ q' ∈ realm, matchesPreferences state q' →
        ¬ q'.displayedTimes < q.displayedTimes := by
  obtain ⟨gs, row, q, hp, hrow, _, hmin, _, ha⟩ := newQuote_selects state realm realm1 action h
  refine ⟨row, q, hrow, by rw [ha], ?_⟩
  intro q' hq' hm
  obtain ⟨j, hj⟩ := List.getElem?_of_mem hq'
  have := hmin j q' hj ((parseQuery_filterExpression state gs hp).2.1 q' hm)
  omega

theorem newQuote_least_shown_witness :
    (∃ action, newQuote initialState (loadQuotes tieQuotes []).1
      = Except.ok (tieRealm, action)) ∧
    filtered (objects tieRealm) (filterExpression initialState) = Except.ok tieFiltered ∧
    newQuote initialState tieRealm = Except.ok (tieShown.1, tieShown.2) ∧
    ∃ (row : Nat) (q : Quote), tieRealm[row]? = some q ∧
      tieShown.2.payload = JSValue.nextQuotePayload
        { q with displayedTimes := q.displayedTimes + 1 } q.id ∧
      ∀ q' ∈ tieRealm, matchesPreferences initialState q' →
        ¬ q'.displayedTimes < q.displayedTimes :=
  ⟨⟨_, rfl⟩, rfl, rfl, newQuote_least_shown initialState tieRealm tieShown.1 tieShown.2 rfl⟩

/-- C3. Tie-break: in a store whose ids are the row positions (as `loadQuotes`
assigns them), the row `q` that `newQuote` selects is one of the rows that
`filtered` returns and is their minimum in the order (displayedTimes, id): every
other returned row with the same `displayedTimes` has a strictly greater id. It
is likewise minimal among the quotes that the preferences select. -/
theorem newQuote_tie_break (state : State) (realm realm1 : Realm) (action : Action)
    (hids : ∀ (i : Nat) (q : Quote), realm[i]? = some q → q.id = i)
    (h : newQuote state realm = Except.ok (realm1, action)) :
    ∃ (row : Nat) (q : Quote) (results : Results), realm[row]? = some q ∧
      action.payload = JSValue.nextQuotePayload
        { q with displayedTimes := q.displayedTimes + 1 } q.id ∧
      filtered (objects realm) (filterExpression state) = Except.ok results ∧
      (row, q) ∈ results ∧
      (∀ r ∈ results, q.displayedTimes < r.2.displayedTimes ∨
        (q.displayedTimes = r.2.displayedTimes ∧ q.id ≤ r.2.id)) ∧
      (∀ r ∈ results, r.2.displayedTimes = q.displayedTimes → r ≠ (row, q) →
        q.id < r.2.id) ∧
      (∀ q' ∈ realm, matchesPreferences state q' →
        q.displayedTimes < q'.displayedTimes ∨
          (q.displayedTimes = q'.displayedTimes ∧ q.id ≤ q'.id)) := by
  obtain ⟨gs, row, q, hp, hrow, hholds, hmin, _, ha⟩ :=
    newQuote_selects state realm realm1 action h
  have hqid := hids row q hrow
  refine ⟨row, q, (objects realm).filter (fun r => queryHolds gs r.2), hrow, by rw [ha],
    by simp only [filtered, hp], ?_, ?_, ?_, ?_⟩
  · rw [List.mem_filter]
    exact ⟨List.mk_mem_enum_iff_getElem?.2 hrow, hholds⟩
  · intro r hr
    rw [List.mem_filter] at hr
    have hj : realm[r.1]? = some r.2 := List.mk_mem_enum_iff_getElem?.1 hr.1
    have := hmin r.1 r.2 hj hr.2
    rw [hqid, hids r.1 r.2 hj]
    exact this
  · intro r hr hdt hne
    rw [List.mem_filter] at hr
    have hj : realm[r.1]? = some r.2 := List.mk_mem_enum_iff_getElem?.1 hr.1
    have hle := hmin r.1 r.2 hj hr.2
    rw [hqid, hids r.1 r.2 hj]
    have hrow_ne : r.1 ≠ row := by
      intro he
      apply hne
      rw [he, hrow] at hj
      exact Prod.ext he (Option.some.inj hj).symm
    omega
  · intro q' hq' hm
    obtain ⟨j, hj⟩ := List.getElem?_of_mem hq'
    have := hmin j q' hj ((parseQuery_filterExpression state gs hp).2.1 q' hm)
    rw [hqid, hids j q' hj]
    exact this

theorem newQuote_tie_break_witness :
    (∀ (i : Nat) (q : Quote), tieRealm[i]? = some q → q.id = i) ∧
    filtered (objects tieRealm) (filterExpression initialState) = Except.ok tieFiltered ∧
    newQuote initialState tieRealm = Except.ok (tieShown.1, tieShown.2) ∧
    ∃ (row : Nat) (q : Quote) (results : Results), tieRealm[row]? = some q ∧
      tieShown.2.payload = JSValue.nextQuotePayload
        { q with displayedTimes := q.displayedTimes + 1 } q.id ∧
      filtered (objects tieRealm) (filterExpression initialState) = Except.ok results ∧
      (row, q) ∈ results ∧
      (∀ r ∈ results, q.displayedTimes < r.2.displayedTimes ∨
        (q.displayedTimes = r.2.displayedTimes ∧ q.id ≤ r.2.id)) ∧
      (∀ r ∈ results, r.2.displayedTimes = q.displayedTimes → r ≠ (row, q) →
        q.id < r.2.id) ∧
      (∀ q' ∈ tieRealm, matchesPreferences initialState q' →
        q.displayedTimes < q'.displayedTimes ∨
          (q.displayedTimes = q'.displayedTimes ∧ q.id ≤ q'.id)) :=
  have hids : ∀ (i : Nat) (q : Quote), tieRealm[i]? = some q → q.id = i := by
    intro i q hq
    match i with
    | 0 => cases hq; rfl
    | 1 => cases hq; rfl
    | 2 => cases hq; rfl
    | 3 => cases hq; rfl
    | n + 4 => cases hq
  ⟨hids, rfl, rfl,
    newQuote_tie_break initialState tieRealm tieShown.1 tieShown.2 hids rfl⟩

/-- C4. Monotonic counters: a successful `newQuote` keeps the number of rows,
raises the `displayedTimes` of the selected row by exactly 1 and leaves every
other row of the store as it was. -/
theorem newQuote_counters (state : State) (realm realm1 : Realm) (action : Action)
    (h : newQuote state realm = Except.ok (realm1, action)) :
    ∃ (row : Nat) (q q1 : Quote), realm[row]? = some q ∧
      action.payload = JSValue.nextQuotePayload q1 q.id ∧
      realm1.length = realm.length ∧
      realm1[row]? = some q1 ∧ q1.displayedTimes = q.displayedTimes + 1 ∧
      ∀ j, j ≠ row → realm1[j]? = realm[j]? := by
  obtain ⟨gs, row, q, _, hrow, _, _, hr, ha⟩ := newQuote_selects state realm realm1 action h
  have hlt : row < realm.length := (List.getElem?_eq_some_iff.1 hrow).1
  refine ⟨row, q, { q with displayedTimes := q.displayedTimes + 1 }, hrow, by rw [ha], ?_, ?_,
    rfl, ?_⟩
  · rw [hr, List.length_set]
  · rw [hr, List.getElem?_set_self hlt]
  · intro j hj
    rw [hr, List.getElem?_set_ne (Ne.symm hj)]

theorem newQuote_counters_witness :
    newQuote initialState exampleRealm = Except.ok (exampleShown.1, exampleShown.2) ∧
    ∃ (row : Nat) (q q1 : Quote), exampleRealm[row]? = some q ∧
      exampleShown.2.payload = JSValue.nextQuotePayload q1 q.id ∧
      exampleShown.1.length = exampleRealm.length ∧
      exampleShown.1[row]? = some q1 ∧ q1.displayedTimes = q.displayedTimes + 1 ∧
      ∀ j, j ≠ row → exampleShown.1[j]? = exampleRealm[j]? :=
  ⟨rfl, newQuote_counters initialState exampleRealm exampleShown.1 exampleShown.2 rfl⟩

/-- C5. Empty filter: when every entry of `categories` is `false` (whatever
`showFavorites`), `newQuote` fails: Realm rejects the filter string, no row is
written and no `NEXT_QUOTE` action is dispatched. -/
theorem newQuote_no_category (state : State) (realm : Realm)
    (h : ∀ kv ∈ state.categories, kv.2 = false) :
    newQuote state realm = Except.error JSError.invalidPredicate := by
  have hact : activeCategories state.categories = [] := by
    unfold activeCategories
    rw [List.filter_eq_nil_iff]
    intro k _
    simp [get_of_all_false state.categories h k]
  simp [newQuote, nextQuote, filtered, parseQuery_filterExpression_eq_none state hact]

theorem newQuote_no_category_witness :
    (∀ kv ∈ noCategoryState.categories, kv.2 = false) ∧
    newQuote noCategoryState exampleRealm = Except.error JSError.invalidPredicate :=
  have hall : ∀ kv ∈ noCategoryState.categories, kv.2 = false := by
    intro kv hkv
    simp [noCategoryState, initialState] at hkv
    rcases hkv with h | h | h | h | h | h | h | h <;> rw [h]
  ⟨hall, newQuote_no_category noCategoryState exampleRealm hall⟩

/-- C6. Post-increment snapshot: the `nextQuote` of the `NEXT_QUOTE` payload is
the value of the selected row after the increment, as now stored: same id,
quote, author, category and bookmarked as before, `displayedTimes` one more; and
`payload.index` is the id of the row. -/
theorem newQuote_snapshot (state : State) (realm realm1 : Realm) (action : Action)
    (h : newQuote state realm = Except.ok (realm1, action)) :
    ∃ (row : Nat) (q snapshot : Quote), realm[row]? = some q ∧
      action =
        { type := NEXT_QUOTE, payload := JSValue.nextQuotePayload snapshot snapshot.id } ∧
      realm1[row]? = some snapshot ∧
      snapshot.id = q.id ∧ snapshot.quote = q.quote ∧ snapshot.author = q.author ∧
      snapshot.category = q.category ∧ snapshot.bookmarked = q.bookmarked ∧
      snapshot.displayedTimes = q.displayedTimes + 1 := by
  obtain ⟨gs, row, q, _, hrow, _, _, hr, ha⟩ := newQuote_selects state realm realm1 action h
  have hlt : row < realm.length := (List.getElem?_eq_some_iff.1 hrow).1
  refine ⟨row, q, { q with displayedTimes := q.displayedTimes + 1 }, hrow, ha, ?_,
    rfl, rfl, rfl, rfl, rfl, rfl⟩
  rw [hr, List.getElem?_set_self hlt]

theorem newQuote_snapshot_witness :
    newQuote initialState exampleRealm = Except.ok (exampleShown.1, exampleShown.2) ∧
    ∃ (row : Nat) (q snapshot : Quote), exampleRealm[row]? = some q ∧
      exampleShown.2 =
        { type := NEXT_QUOTE, payload := JSValue.nextQuotePayload snapshot snapshot.id } ∧
      exampleShown.1[row]? = some snapshot ∧
      snapshot.id = q.id ∧ snapshot.quote = q.quote ∧ snapshot.author = q.author ∧
      snapshot.category = q.category ∧ snapshot.bookmarked = q.bookmarked ∧
      snapshot.displayedTimes = q.displayedTimes + 1 :=
  ⟨rfl, newQuote_snapshot initialState exampleRealm exampleShown.1 exampleShown.2 rfl⟩

/-! ## Claims on `toggleBookmark` -/

theorem set_of_getElem? {α : Type} (l : List α) (i : Nat) (a : α) (h : l[i]? = some a) :
    l.set i a = l := by
  induction l generalizing i with
  | nil => simp
  | cons b rest ih =>
    cases i with
    | zero =>
      simp at h
      simp [h]
    | succ j =>
      simp at h
      simp [ih j h]

/-- The first row with a given id, as `filtered('id = n')[0]` finds it; writing
a row of the same id there leaves it the first such row. -/
theorem filteredById_head (n : Nat) (realm : Realm) (start : Nat)
    (h : ∃ q ∈ realm, q.id = n) :
    ∃ (row : Nat) (q : Quote),
      (filteredById (realm.enumFrom start) n).head? = some (start + row, q) ∧
      realm[row]? = some q ∧ q.id = n ∧
      ∀ q1 : Quote, q1.id = n →
        (filteredById ((realm.set row q1).enumFrom start) n).head? = some (start + row, q1) := by
  induction realm generalizing start with
  | nil => simp at h
  | cons a rest ih =>
    by_cases ha : a.id = n
    · refine ⟨0, a, ?_, by simp, ha, ?_⟩
      · simp [filteredById, List.filter_cons, ha]
      · intro q1 hq1
        simp [filteredById, List.filter_cons, hq1]
    · have hrest : ∃ q ∈ rest, q.id = n := by
        obtain ⟨q, hq, hid⟩ := h
        rcases List.mem_cons.1 hq with hq | hq
        · subst hq; exact absurd hid ha
        · exact ⟨q, hq, hid⟩
      obtain ⟨row, q, hhead, hrow, hid, hset⟩ := ih (start + 1) hrest
      refine ⟨row + 1, q, ?_, by simpa using hrow, hid, ?_⟩
      · simp only [filteredById, List.enumFrom_cons, List.filter_cons, ha, decide_False,
          Bool.false_eq_true, if_false] at hhead ⊢
        rw [hhead]
        congr 2
        omega
      · intro q1 hq1
        have := hset q1 hq1
        simp only [filteredById, List.set_cons_succ, List.enumFrom_cons, List.filter_cons, ha,
          decide_False, Bool.false_eq_true, if_false] at this ⊢
        rw [this]
        congr 2
        omega

/-- C8. Bookmark round trip: for an id present in the store, the store write of
`toggleBookmark` succeeds and negates the `bookmarked` flag of the first row with
that id, and a second write for the same id gives back the original store, so
every quote has its original `bookmarked` value again. -/
theorem toggleBookmark_round_trip (quoteToBookmark : Quote) (realm : Realm)
    (h : ∃ q ∈ realm, q.id = quoteToBookmark.id) :
    ∃ (realm1 : Realm) (row : Nat) (q : Quote),
      toggleBookmarkWrite quoteToBookmark realm = Except.ok realm1 ∧
      realm[row]? = some q ∧ q.id = quoteToBookmark.id ∧
      realm1[row]? = some { q with bookmarked := !q.bookmarked } ∧
      toggleBookmarkWrite quoteToBookmark realm1 = Except.ok realm := by
  obtain ⟨row, q, hhead, hrow, hid, hset⟩ := filteredById_head quoteToBookmark.id realm 0 h
  have hlt : row < realm.length := (List.getElem?_eq_some_iff.1 hrow).1
  rw [Nat.zero_add] at hhead
  refine ⟨realm.set row { q with bookmarked := !q.bookmarked }, row, q, ?_, hrow, hid, ?_, ?_⟩
  · simp [toggleBookmarkWrite, objects, List.enum, hhead]
  · rw [List.getElem?_set_self hlt]
  · have h2 := hset { q with bookmarked := !q.bookmarked } hid
    rw [Nat.zero_add] at h2
    simp only [toggleBookmarkWrite, objects, List.enum, h2, Bool.not_not, List.set_set]
    congr 1
    exact set_of_getElem? realm row q hrow

theorem toggleBookmark_round_trip_witness :
    (∃ q ∈ exampleRealm, q.id = (exampleShownA 1).id) ∧
    ∃ (realm1 : Realm) (row : Nat) (q : Quote),
      toggleBookmarkWrite (exampleShownA 1) exampleRealm = Except.ok realm1 ∧
      exampleRealm[row]? = some q ∧ q.id = (exampleShownA 1).id ∧
      realm1[row]? = some { q with bookmarked := !q.bookmarked } ∧
      toggleBookmarkWrite (exampleShownA 1) realm1 = Except.ok exampleRealm :=
  have hex : ∃ q ∈ exampleRealm, q.id = (exampleShownA 1).id :=
    ⟨exampleShownA 0, List.mem_cons_self _ _, rfl⟩
  ⟨hex, toggleBookmark_round_trip (exampleShownA 1) exampleRealm hex⟩

/-! ## Claims on `QuotesReducer` -/

/-- C9 (as stated, refuted). `TOGGLE_BOOKMARK` is a declared action, and on
`initialState`, whose `currentQuote` is `null`, `QuotesReducer` throws a
`TypeError` instead of returning a state. -/
theorem QuotesReducer_toggleBookmark_null_throws :
    Action.declared { type := TOGGLE_BOOKMARK, payload := JSValue.undefined } = true ∧
    initialState.currentQuote = none ∧
    QuotesReducer initialState { type := TOGGLE_BOOKMARK, payload := JSValue.undefined } 0
      = Except.error JSError.typeError ∧
    ¬ ∃ s, QuotesReducer initialState
        { type := TOGGLE_BOOKMARK, payload := JSValue.undefined } 0 = Except.ok s :=
  ⟨rfl, rfl, rfl, fun ⟨_, hs⟩ => by cases hs⟩

/-- For a declared action, `QuotesReducer` returns a state exactly when the
action is not `TOGGLE_BOOKMARK` applied to a state without current quote. -/
theorem reducer_returns_state_iff (state : State) (action : Action) (random : Nat)
    (hd : action.declared = true) :
    (∃ s, QuotesReducer state action random = Except.ok s) ↔
      ¬ (action.type = TOGGLE_BOOKMARK ∧ state.currentQuote = none) := by
  unfold QuotesReducer
  by_cases h1 : action.type = LOAD_QUOTES
  · simp only [h1, if_true]
    constructor
    · intro _ hb
      exact absurd hb.1 (by decide)
    · intro _; exact ⟨_, rfl⟩
  · by_cases h2 : action.type = NEXT_QUOTE
    · have hne : ¬ (NEXT_QUOTE = LOAD_QUOTES) := by decide
      simp only [h2, hne, if_true, if_false]
      constructor
      · intro _ hb
        exact absurd hb.1 (by decide)
      · intro _
        cases hp : action.payload with
        | undefined =>
          simp [Action.declared, h2, hp] at hd
          exact absurd hd (by decide)
        | string s =>
          simp [Action.declared, h2, hp] at hd
          exact absurd hd (by decide)
        | nextQuotePayload q i => exact ⟨_, rfl⟩
    · by_cases h3 : action.type = TOGGLE_BOOKMARK
      · have hne1 : ¬ (TOGGLE_BOOKMARK = LOAD_QUOTES) := by decide
        have hne2 : ¬ (TOGGLE_BOOKMARK = NEXT_QUOTE) := by decide
        simp only [h3, hne1, hne2, if_true, if_false, true_and]
        cases hc : state.currentQuote with
        | none => simp
        | some q => simp
      · simp only [h1, h2, h3, if_false, false_and, not_false_eq_true, iff_true]
        split_ifs <;> exact ⟨_, rfl⟩

/-- C9 (amended). For every preference state, every declared action and every
random draw, `QuotesReducer` returns a state exactly when the action is not
`TOGGLE_BOOKMARK` applied to a state whose `currentQuote` is `null`; in that
excepted case it throws a `TypeError`. -/
theorem QuotesReducer_returns_iff (state : State) (action : Action) (random : Nat)
    (hd : action.declared = true) :
    ((∃ s, QuotesReducer state action random = Except.ok s) ↔
      ¬ (action.type = TOGGLE_BOOKMARK ∧ state.currentQuote = none)) ∧
    (action.type = TOGGLE_BOOKMARK ∧ state.currentQuote = none →
      QuotesReducer state action random = Except.error JSError.typeError) := by
  refine ⟨reducer_returns_state_iff state action random hd, ?_⟩
  intro hb
  have hne1 : ¬ (TOGGLE_BOOKMARK = LOAD_QUOTES) := by decide
  have hne2 : ¬ (TOGGLE_BOOKMARK = NEXT_QUOTE) := by decide
  simp only [QuotesReducer, hb.1, hb.2, hne1, hne2, if_true, if_false]

theorem QuotesReducer_returns_iff_witness :
    Action.declared { type := TOGGLE_BOOKMARK, payload := JSValue.undefined } = true ∧
    (((∃ s, QuotesReducer { initialState with currentQuote := some (exampleShownA 1) }
        { type := TOGGLE_BOOKMARK, payload := JSValue.undefined } 0 = Except.ok s) ↔
      ¬ (TOGGLE_BOOKMARK = TOGGLE_BOOKMARK ∧ some (exampleShownA 1) = none)) ∧
     (TOGGLE_BOOKMARK = TOGGLE_BOOKMARK ∧ some (exampleShownA 1) = none →
      QuotesReducer { initialState with currentQuote := some (exampleShownA 1) }
        { type := TOGGLE_BOOKMARK, payload := JSValue.undefined } 0
        = Except.error JSError.typeError)) ∧
    QuotesReducer initialState { type := TOGGLE_BOOKMARK, payload := JSValue.undefined } 0
      = Except.error JSError.typeError :=
  ⟨rfl,
    QuotesReducer_returns_iff { initialState with currentQuote := some (exampleShownA 1) }
      { type := TOGGLE_BOOKMARK, payload := JSValue.undefined } 0 rfl,
    (QuotesReducer_returns_iff initialState
      { type := TOGGLE_BOOKMARK, payload := JSValue.undefined } 0 rfl).2 ⟨rfl, rfl⟩⟩

/-- C10. Background derivation: for `newType` one of `BG_WHITE`, `BG_BLACK`,
`BG_RANDOM`, `QuotesReducer` on `CHANGE_BG_TYPE(newType)` returns a state with
`bgType = newType`, with `isDarkBg` false for `BG_WHITE`, true for `BG_BLACK` and
unchanged for `BG_RANDOM`, and with every other field unchanged. -/
theorem QuotesReducer_changeBgType (state : State) (newType : JSValue) (random : Nat)
    (h : newType = BG_TYPES.BG_WHITE ∨ newType = BG_TYPES.BG_BLACK ∨
      newType = BG_TYPES.BG_RANDOM) :
    ∃ s, QuotesReducer state (changeBgType newType) random = Except.ok s ∧
      s.bgType = newType ∧
      ((newType = BG_TYPES.BG_WHITE ∧ s.isDarkBg = false) ∨
       (newType = BG_TYPES.BG_BLACK ∧ s.isDarkBg = true) ∨
       (newType = BG_TYPES.BG_RANDOM ∧ s.isDarkBg = state.isDarkBg)) ∧
      s.quotesLoaded = state.quotesLoaded ∧ s.currentQuote = state.currentQuote ∧
      s.showFavorites = state.showFavorites ∧ s.categories = state.categories := by
  have e1 : ¬ (CHANGE_BG_TYPE = LOAD_QUOTES) := by decide
  have e2 : ¬ (CHANGE_BG_TYPE = NEXT_QUOTE) := by decide
  have e3 : ¬ (CHANGE_BG_TYPE = TOGGLE_BOOKMARK) := by decide
  have w1 : ¬ (BG_TYPES.BG_BLACK = BG_TYPES.BG_WHITE) := by decide
  have w2 : ¬ (BG_TYPES.BG_RANDOM = BG_TYPES.BG_WHITE) := by decide
  have w3 : ¬ (BG_TYPES.BG_BLACK = BG_TYPES.BG_RANDOM) := by decide
  simp only [QuotesReducer, changeBgType, e1, e2, e3, if_true, if_false]
  refine ⟨_, rfl, rfl, ?_, rfl, rfl, rfl, rfl⟩
  rcases h with h | h | h
  · left; simp [h]
  · right; left; simp [h, w1, w3]
  · right; right; simp [h, w2]

theorem QuotesReducer_changeBgType_witness :
    (BG_TYPES.BG_BLACK = BG_TYPES.BG_WHITE ∨ BG_TYPES.BG_BLACK = BG_TYPES.BG_BLACK ∨
      BG_TYPES.BG_BLACK = BG_TYPES.BG_RANDOM) ∧
    ∃ s, QuotesReducer initialState (changeBgType BG_TYPES.BG_BLACK) 0 = Except.ok s ∧
      s.bgType = BG_TYPES.BG_BLACK ∧
      ((BG_TYPES.BG_BLACK = BG_TYPES.BG_WHITE ∧ s.isDarkBg = false) ∨
       (BG_TYPES.BG_BLACK = BG_TYPES.BG_BLACK ∧ s.isDarkBg = true) ∨
       (BG_TYPES.BG_BLACK = BG_TYPES.BG_RANDOM ∧ s.isDarkBg = initialState.isDarkBg)) ∧
      s.quotesLoaded = initialState.quotesLoaded ∧
      s.currentQuote = initialState.currentQuote ∧
      s.showFavorites = initialState.showFavorites ∧
      s.categories = initialState.categories :=
  ⟨Or.inr (Or.inl rfl),
    QuotesReducer_changeBgType initialState BG_TYPES.BG_BLACK 0 (Or.inr (Or.inl rfl))⟩

/-! ## Repeated selection under fixed preferences -/

theorem roundRobin_displayedTimes (p : Quote → Bool) (a b : Nat) (realm : Realm) :
    ∀ q ∈ roundRobin p a b realm, p q = true → a ≤ q.displayedTimes := by
  induction realm generalizing b with
  | nil => simp [roundRobin]
  | cons q0 rest ih =>
    intro q hq hpq
    by_cases h0 : p q0 = true
    · cases b with
      | zero =>
        simp only [roundRobin, h0, if_true, List.mem_cons] at hq
        rcases hq with hq | hq
        · subst hq; exact le_refl _
        · exact ih 0 q hq hpq
      | succ b1 =>
        simp only [roundRobin, h0, if_true, List.mem_cons] at hq
        rcases hq with hq | hq
        · subst hq; exact Nat.le_succ _
        · exact ih b1 q hq hpq
    · simp only [roundRobin, h0, Bool.false_eq_true, if_false, List.mem_cons] at hq
      rcases hq with hq | hq
      · subst hq; exact absurd hpq h0
      · exact ih b q hq hpq

theorem roundRobin_full (p : Quote → Bool) (a : Nat) (realm : Realm) :
    roundRobin p a (realm.countP p) realm = roundRobin p (a + 1) 0 realm := by
  induction realm with
  | nil => simp [roundRobin]
  | cons q0 rest ih =>
    by_cases h0 : p q0 = true
    · rw [List.countP_cons_of_pos _ _ h0]
      simp only [roundRobin, h0, if_true, ih]
    · rw [List.countP_cons_of_neg _ _ h0]
      simp only [roundRobin, h0, Bool.false_eq_true, if_false, ih]

theorem roundRobin_zero (p : Quote → Bool) (realm : Realm)
    (h : ∀ q ∈ realm, q.displayedTimes = 0) : roundRobin p 0 0 realm = realm := by
  induction realm with
  | nil => simp [roundRobin]
  | cons q0 rest ih =>
    have h0 : q0.displayedTimes = 0 := h q0 (List.mem_cons_self _ _)
    have hrest := ih (fun q hq => h q (List.mem_cons_of_mem _ hq))
    have hq0 : ({ q0 with displayedTimes := 0 } : Quote) = q0 := by
      cases q0; simp at h0; simp [h0]
    by_cases hp0 : p q0 = true
    · simp only [roundRobin, hp0, if_true, hrest, hq0]
    · simp only [roundRobin, hp0, Bool.false_eq_true, if_false, hrest]

/-- In the store `roundRobin p a b realm` with `b` below the number of rows
satisfying `p`, the head of the sorted filtered rows is the row of rank `b`
among those satisfying `p`, shown `a` times; incrementing it gives
`roundRobin p a (b + 1) realm`. -/
theorem roundRobin_head (p : Quote → Bool)
    (hp : ∀ (q : Quote) (n : Nat), p { q with displayedTimes := n } = p q)
    (a : Nat) (realm : Realm) (b start : Nat) (hb : b < realm.countP p) :
    ∃ (row : Nat) (q : Quote), (realm.filter p)[b]? = some q ∧
      (sorted (((roundRobin p a b realm).enumFrom start).filter (fun r => p r.2))).head?
        = some (start + row, { q with displayedTimes := a }) ∧
      (roundRobin p a b realm).set row { q with displayedTimes := a + 1 }
        = roundRobin p a (b + 1) realm := by
  induction realm generalizing b start with
  | nil => simp at hb
  | cons q0 rest ih =>
    by_cases h0 : p q0 = true
    · rw [List.countP_cons_of_pos _ _ h0] at hb
      cases b with
      | zero =>
        refine ⟨0, q0, by simp [List.filter_cons, h0], ?_, by simp [roundRobin, h0]⟩
        have hq : p { q0 with displayedTimes := a } = true := by rw [hp]; exact h0
        simp only [roundRobin, h0, if_true, List.enumFrom_cons, List.filter_cons, hq,
          sorted_cons, head?_orderedInsert]
        cases hh : (sorted (((roundRobin p a 0 rest).enumFrom (start + 1)).filter
            (fun r => p r.2))).head? with
        | none => simp
        | some y =>
          have hy : y ∈ sorted (((roundRobin p a 0 rest).enumFrom (start + 1)).filter
              (fun r => p r.2)) := List.mem_of_mem_head? hh
          rw [mem_sorted, List.mem_filter] at hy
          have hle := roundRobin_displayedTimes p a 0 rest y.2
            (List.snd_mem_of_mem_enumFrom hy.1) hy.2
          simp [hle]
      | succ b1 =>
        have hb1 : b1 < rest.countP p := by omega
        obtain ⟨row, q, hq, hhead, hset⟩ := ih b1 (start + 1) hb1
        refine ⟨row + 1, q, by simpa [List.filter_cons, h0] using hq, ?_, ?_⟩
        · have hq1 : p { q0 with displayedTimes := a + 1 } = true := by rw [hp]; exact h0
          simp only [roundRobin, h0, if_true, List.enumFrom_cons, List.filter_cons, hq1,
            sorted_cons, head?_orderedInsert, hhead]
          have : ¬ (a + 1 ≤ a) := by omega
          simp only [this, if_false]
          congr 2
          omega
        · simp only [roundRobin, h0, if_true, List.set_cons_succ, hset]
    · rw [List.countP_cons_of_neg _ _ h0] at hb
      obtain ⟨row, q, hq, hhead, hset⟩ := ih b (start + 1) hb
      refine ⟨row + 1, q, by simpa [List.filter_cons, h0] using hq, ?_, ?_⟩
      · simp only [roundRobin, h0, Bool.false_eq_true, if_false, List.enumFrom_cons,
          List.filter_cons, hhead]
        congr 2
        omega
      · simp only [roundRobin, h0, Bool.false_eq_true, if_false, List.set_cons_succ, hset]

theorem forEachCreate_displayedTimes (quotes : List QuoteData) (index : Nat) (realm : Realm) :
    ∀ q ∈ forEachCreate quotes index realm, q ∈ realm ∨ q.displayedTimes = 0 := by
  induction quotes generalizing index realm with
  | nil => intro q hq; exact Or.inl hq
  | cons d rest ih =>
    intro q hq
    rcases ih (index + 1) _ q hq with h | h
    · rcases List.mem_append.1 h with h | h
      · exact Or.inl h
      · right
        rw [List.mem_singleton] at h
        subst h
        rfl
    · exact Or.inr h

theorem loadQuotes_displayedTimes (quotes : List QuoteData) :
    ∀ q ∈ (loadQuotes quotes []).1, q.displayedTimes = 0 := by
  intro q hq
  rcases forEachCreate_displayedTimes quotes 0 [] q hq with h | h
  · simp at h
  · exact h

theorem parseQuery_filterExpression_of_active (state : State) (q : Quote)
    (hfav : state.showFavorites = false)
    (hq : truthy (state.categories.get q.category) = true) :
    ∃ gs, parseQuery (filterExpression state) = some gs ∧
      (fun r : Nat × Quote => queryHolds gs r.2)
        = (fun r : Nat × Quote => truthy (state.categories.get r.2.category)) := by
  have hmem : q.category ∈ activeCategories state.categories :=
    (mem_activeCategories _ _).2 ((truthy_eq_true_iff _).1 hq)
  cases hl : activeCategories state.categories with
  | nil => rw [hl] at hmem; simp at hmem
  | cons c rest =>
    have hparse : parseQuery (filterExpression state)
        = some ((c :: rest).map (fun k => [Comparison.categoryEq k])) := by
      rw [filterExpression_eq, hl, hfav]
      simp only [Bool.false_eq_true, if_false, parseQuery_orTerms]
    refine ⟨_, hparse, ?_⟩
    funext r
    exact (parseQuery_filterExpression state _ hparse).2.2 hfav r.2

/-- One selection in the round-robin store: with `b` below the number `m` of
active rows, `newQuote` returns the active row of rank `b` shown `a + 1` times
and leaves the store `roundRobin _ a (b + 1) _`. -/
theorem newQuote_roundRobin (state : State) (realm : Realm) (a b : Nat)
    (hfav : state.showFavorites = false)
    (hb : b < (activeRows state realm).length) :
    ∃ q : Quote, (activeRows state realm)[b]? = some q ∧
      newQuote state (roundRobin (fun q => truthy (state.categories.get q.category)) a b realm)
        = Except.ok
          (roundRobin (fun q => truthy (state.categories.get q.category)) a (b + 1) realm,
           { type := NEXT_QUOTE,
             payload := JSValue.nextQuotePayload { q with displayedTimes := a + 1 } q.id }) := by
  have hcount : b < realm.countP (fun q => truthy (state.categories.get q.category)) := by
    rw [List.countP_eq_length_filter]; exact hb
  obtain ⟨row, q, hq, hhead, hset⟩ :=
    roundRobin_head (fun q => truthy (state.categories.get q.category))
      (fun _ _ => rfl) a realm b 0 hcount
  have hqmem : q ∈ realm.filter (fun q => truthy (state.categories.get q.category)) :=
    List.getElem?_mem hq
  obtain ⟨gs, hparse, hfun⟩ :=
    parseQuery_filterExpression_of_active state q hfav (List.mem_filter.1 hqmem).2
  refine ⟨q, hq, ?_⟩
  rw [Nat.zero_add] at hhead
  simp only [newQuote, nextQuote, filtered, hparse, hfun, objects, List.enum, hhead]
  rw [← hset]

theorem QuotesReducer_nextQuote (state : State) (q : Quote) (index random : Nat) :
    ∃ s, QuotesReducer state
        { type := NEXT_QUOTE, payload := JSValue.nextQuotePayload q index } random
        = Except.ok s ∧
      s.categories = state.categories ∧ s.showFavorites = state.showFavorites ∧
      s.currentQuote = some q := by
  have hne : ¬ (NEXT_QUOTE = LOAD_QUOTES) := by decide
  simp only [QuotesReducer, hne, if_true, if_false]
  exact ⟨_, rfl, rfl, rfl, rfl⟩

theorem roundRobin_next (p : Quote → Bool) (realm : Realm) (k : Nat)
    (hm : 0 < realm.countP p) :
    roundRobin p (k / realm.countP p) (k % realm.countP p + 1) realm
      = roundRobin p ((k + 1) / realm.countP p) ((k + 1) % realm.countP p) realm := by
  have hlt : k % realm.countP p < realm.countP p := Nat.mod_lt _ hm
  have hk : realm.countP p * (k / realm.countP p) + k % realm.countP p = k :=
    Nat.div_add_mod k _
  by_cases hcase : k % realm.countP p + 1 < realm.countP p
  · have h1 : (k + 1) / realm.countP p = k / realm.countP p := by
      have : k + 1 = (k % realm.countP p + 1) + realm.countP p * (k / realm.countP p) := by
        omega
      rw [this, Nat.add_mul_div_left _ _ hm, Nat.div_eq_of_lt hcase, Nat.zero_add]
    have h2 : (k + 1) % realm.countP p = k % realm.countP p + 1 := by
      have : k + 1 = (k % realm.countP p + 1) + realm.countP p * (k / realm.countP p) := by
        omega
      rw [this, Nat.add_mul_mod_self_left, Nat.mod_eq_of_lt hcase]
    rw [h1, h2]
  · have heq : k % realm.countP p + 1 = realm.countP p := by omega
    have hsum : k + 1 = realm.countP p * (k / realm.countP p + 1) := by
      rw [Nat.mul_add, Nat.mul_one]; omega
    have h1 : (k + 1) / realm.countP p = k / realm.countP p + 1 := by
      rw [hsum, Nat.mul_div_cancel_left _ hm]
    have h2 : (k + 1) % realm.countP p = 0 := by
      rw [hsum, Nat.mul_mod_right]
    rw [h1, h2, heq, roundRobin_full]

/-- Consecutive runs of `newQuote` walk through the round-robin stores: after
`j` selections the store is `roundRobin _ (j / m) (j % m) _`, and the categories
and the favourites flag of the preferences stay as they were. -/
theorem newQuoteRuns_roundRobin (cats : BoolObject) (realm : Realm)
    (hm : 0 < realm.countP (fun q => truthy (cats.get q.category)))
    (randoms : List Nat) (s : State) (j : Nat)
    (hc : s.categories = cats) (hf : s.showFavorites = false) :
    ∃ s1 : State,
      newQuoteRuns randoms
          (s, roundRobin (fun q => truthy (cats.get q.category))
            (j / realm.countP (fun q => truthy (cats.get q.category)))
            (j % realm.countP (fun q => truthy (cats.get q.category))) realm)
        = Except.ok
          (s1, roundRobin (fun q => truthy (cats.get q.category))
            ((j + randoms.length) / realm.countP (fun q => truthy (cats.get q.category)))
            ((j + randoms.length) % realm.countP (fun q => truthy (cats.get q.category)))
            realm) ∧
      s1.categories = cats ∧ s1.showFavorites = false := by
  induction randoms generalizing s j with
  | nil => exact ⟨s, rfl, hc, hf⟩
  | cons r rest ih =>
    have hb : j % realm.countP (fun q => truthy (cats.get q.category))
        < (activeRows s realm).length := by
      unfold activeRows
      rw [hc, ← List.countP_eq_length_filter]
      exact Nat.mod_lt _ hm
    obtain ⟨q, _, hnq⟩ := newQuote_roundRobin s realm
      (j / realm.countP (fun q => truthy (cats.get q.category)))
      (j % realm.countP (fun q => truthy (cats.get q.category))) hf hb
    rw [hc, roundRobin_next _ _ _ hm] at hnq
    obtain ⟨s1, hred, hc1, hf1, _⟩ := QuotesReducer_nextQuote s
      { q with displayedTimes := j / realm.countP (fun q => truthy (cats.get q.category)) + 1 }
      q.id r
    obtain ⟨s2, hruns, hc2, hf2⟩ := ih s1 (j + 1) (hc1.trans hc) (hf1.trans hf)
    refine ⟨s2, ?_, hc2, hf2⟩
    have hlen : j + (r :: rest).length = j + 1 + rest.length := by
      simp only [List.length_cons]; omega
    rw [hlen, ← hruns]
    simp only [newQuoteRuns, newQuoteDispatch, hnq, hred]

/-- C7. Repeated selection under a fixed filter. In a store freshly seeded by
`loadQuotes`, with `showFavorites` false and `m ≥ 1` rows of active category,
after `k - 1` consecutive runs of `newQuote` (whatever the random draws of the
reducer) the `k`-th run succeeds and returns the active row of rank
`(k - 1) mod m` in store order, its snapshot showing `displayedTimes = ⌈k / m⌉`
(written `(k + m - 1) / m`); so each aligned block of `m` selections returns
every active row exactly once. -/
theorem newQuote_repeated (quotes : List QuoteData) (state : State) (randoms : List Nat)
    (k : Nat) (hfav : state.showFavorites = false)
    (hm : 1 ≤ (activeRows state (loadQuotes quotes []).1).length)
    (hk : randoms.length + 1 = k) :
    ∃ (sr : State × Realm) (q : Quote) (realm1 : Realm),
      newQuoteRuns randoms (state, (loadQuotes quotes []).1) = Except.ok sr ∧
      (activeRows state (loadQuotes quotes []).1)[
        (k - 1) % (activeRows state (loadQuotes quotes []).1).length]? = some q ∧
      newQuote sr.1 sr.2 = Except.ok (realm1,
        { type := NEXT_QUOTE,
          payload := JSValue.nextQuotePayload
            { q with displayedTimes :=
                (k + (activeRows state (loadQuotes quotes []).1).length - 1)
                  / (activeRows state (loadQuotes quotes []).1).length }
            q.id }) := by
  have hlen : (activeRows state (loadQuotes quotes []).1).length
      = (loadQuotes quotes []).1.countP (fun q => truthy (state.categories.get q.category)) := by
    unfold activeRows
    rw [List.countP_eq_length_filter]
  have hpos : 0 < (loadQuotes quotes []).1.countP
      (fun q => truthy (state.categories.get q.category)) := by
    rw [← hlen]; exact hm
  obtain ⟨s1, hruns, hc1, hf1⟩ := newQuoteRuns_roundRobin state.categories
    (loadQuotes quotes []).1 hpos randoms state 0 rfl hfav
  simp only [Nat.zero_div, Nat.zero_mod, Nat.zero_add] at hruns
  rw [roundRobin_zero _ _ (loadQuotes_displayedTimes quotes)] at hruns
  have hb : randoms.length % (loadQuotes quotes []).1.countP
      (fun q => truthy (state.categories.get q.category))
      < (activeRows s1 (loadQuotes quotes []).1).length := by
    unfold activeRows
    rw [hc1, ← List.countP_eq_length_filter]
    exact Nat.mod_lt _ hpos
  obtain ⟨q, hq, hnq⟩ := newQuote_roundRobin s1 (loadQuotes quotes []).1
    (randoms.length / (loadQuotes quotes []).1.countP
      (fun q => truthy (state.categories.get q.category)))
    (randoms.length % (loadQuotes quotes []).1.countP
      (fun q => truthy (state.categories.get q.category))) hf1 hb
  have hrows : activeRows s1 (loadQuotes quotes []).1
      = activeRows state (loadQuotes quotes []).1 := by
    unfold activeRows; rw [hc1]
  rw [hrows] at hq
  rw [hc1] at hnq
  have hk1 : k - 1 = randoms.length := by omega
  have hk2 : k + (loadQuotes quotes []).1.countP
      (fun q => truthy (state.categories.get q.category)) - 1
      = randoms.length + (loadQuotes quotes []).1.countP
        (fun q => truthy (state.categories.get q.category)) := by omega
  have hidx : (activeRows state (loadQuotes quotes []).1)[
      (k - 1) % (activeRows state (loadQuotes quotes []).1).length]? = some q := by
    rw [hk1, hlen]; exact hq
  have hceil : (k + (activeRows state (loadQuotes quotes []).1).length - 1)
        / (activeRows state (loadQuotes quotes []).1).length
      = randoms.length / (loadQuotes quotes []).1.countP
          (fun q => truthy (state.categories.get q.category)) + 1 := by
    rw [hlen, hk2, Nat.add_div_right _ hpos]
  rw [← hceil] at hnq
  exact ⟨_, q, _, hruns, hidx, hnq⟩

theorem newQuote_repeated_witness :
    initialState.showFavorites = false ∧
    1 ≤ (activeRows initialState (loadQuotes exampleQuotes []).1).length ∧
    [1].length + 1 = 2 ∧
    ∃ (sr : State × Realm) (q : Quote) (realm1 : Realm),
      newQuoteRuns [1] (initialState, (loadQuotes exampleQuotes []).1) = Except.ok sr ∧
      (activeRows initialState (loadQuotes exampleQuotes []).1)[
        (2 - 1) % (activeRows initialState (loadQuotes exampleQuotes []).1).length]? = some q ∧
      newQuote sr.1 sr.2 = Except.ok (realm1,
        { type := NEXT_QUOTE,
          payload := JSValue.nextQuotePayload
            { q with displayedTimes :=
                (2 + (activeRows initialState (loadQuotes exampleQuotes []).1).length - 1)
                  / (activeRows initialState (loadQuotes exampleQuotes []).1).length }
            q.id }) :=
  ⟨rfl, by decide, rfl, newQuote_repeated exampleQuotes initialState [1] 2 rfl (by decide) rfl⟩

/-- The example of the specification, evaluated: on the store seeded from
`exampleQuotes` with the initial preferences, the first `newQuote` returns quote
`A` (id 0) with `displayedTimes` 1, and the next one returns it again with
`displayedTimes` 2. -/
theorem newQuote_example_twice :
    newQuote initialState exampleRealm = Except.ok exampleShown ∧
    exampleShown.2.payload = JSValue.nextQuotePayload (exampleShownA 1) 0 ∧
    (∃ s, newQuoteRuns [1] (initialState, exampleRealm) = Except.ok (s, exampleShown.1) ∧
      ∃ realm2, newQuote s exampleShown.1 = Except.ok (realm2,
        { type := NEXT_QUOTE, payload := JSValue.nextQuotePayload (exampleShownA 2) 0 })) :=
  ⟨rfl, rfl, _, rfl, _, rfl⟩

/-! ## Seeding gives ids equal to row positions -/

theorem forEachCreate_ids (quotes : List QuoteData) (index : Nat) (realm : Realm)
    (hlen : realm.length = index)
    (hids : ∀ (i : Nat) (q : Quote), realm[i]? = some q → q.id = i) :
    ∀ (i : Nat) (q : Quote), (forEachCreate quotes index realm)[i]? = some q → q.id = i := by
  induction quotes generalizing index realm with
  | nil => exact hids
  | cons d rest ih =>
    apply ih (index + 1) (realm ++ [createQuote d index])
    · simp [hlen]
    · intro i q hq
      by_cases hi : i < realm.length
      · rw [List.getElem?_append_left hi] at hq
        exact hids i q hq
      · rw [List.getElem?_append_right (Nat.le_of_not_lt hi)] at hq
        cases hd : i - realm.length with
        | zero =>
          rw [hd] at hq
          simp only [List.getElem?_cons_zero, Option.some.injEq] at hq
          subst hq
          simp only [createQuote]
          omega
        | succ j =>
          rw [hd] at hq
          simp at hq

/-- The store that `loadQuotes` seeds from an empty one has ids equal to row
positions, the hypothesis of the tie-break property. -/
theorem loadQuotes_ids (quotes : List QuoteData) :
    ∀ (i : Nat) (q : Quote), (loadQuotes quotes []).1[i]? = some q → q.id = i :=
  forEachCreate_ids quotes 0 [] rfl (fun i q hq => by simp at hq)

/-! ## Further claims on `QuotesReducer` -/

theorem get_set_self (o : BoolObject) (k : String) (v : Bool) :
    (o.set k v).get k = some v := by
  induction o with
  | nil => simp [BoolObject.set, BoolObject.get]
  | cons kv rest ih =>
    obtain ⟨k1, v1⟩ := kv
    by_cases hk : k1 = k
    · simp [BoolObject.set, BoolObject.get, hk]
    · simp [BoolObject.set, BoolObject.get, hk, ih]

theorem get_set_ne (o : BoolObject) (k k2 : String) (v : Bool) (h : k2 ≠ k) :
    (o.set k v).get k2 = o.get k2 := by
  induction o with
  | nil => simp [BoolObject.set, BoolObject.get, Ne.symm h]
  | cons kv rest ih =>
    obtain ⟨k1, v1⟩ := kv
    by_cases hk : k1 = k
    · subst hk
      have hk2 : ¬ (k1 = k2) := fun e => h e.symm
      simp [BoolObject.set, BoolObject.get, hk2]
    · by_cases hk2 : k1 = k2
      · subst hk2
        simp [BoolObject.set, BoolObject.get, hk]
      · simp [BoolObject.set, BoolObject.get, hk, hk2, ih]

theorem keys_set_of_mem (o : BoolObject) (k : String) (v : Bool) (h : k ∈ o.keys) :
    (o.set k v).keys = o.keys := by
  induction o with
  | nil => simp [BoolObject.keys] at h
  | cons kv rest ih =>
    obtain ⟨k1, v1⟩ := kv
    by_cases hk : k1 = k
    · simp [BoolObject.set, BoolObject.keys, hk]
    · have hrest : k ∈ BoolObject.keys rest := by
        simp only [BoolObject.keys, List.map_cons, List.mem_cons] at h
        rcases h with h | h
        · exact absurd h.symm hk
        · exact h
      have := ih hrest
      simp only [BoolObject.keys] at this
      simp [BoolObject.set, BoolObject.keys, hk, this]

theorem selectAll_get :
    ∀ k ∈ categoryNames,
      BoolObject.get
        [("inspire", true), ("management", true), ("sports", true), ("life", true),
         ("funny", true), ("love", true), ("art", true), ("students", true)] k = some true := by
  decide

theorem selectAll_values :
    ∀ kv ∈ ([("inspire", true), ("management", true), ("sports", true), ("life", true),
         ("funny", true), ("love", true), ("art", true), ("students", true)] : BoolObject),
      kv.2 = true := by
  decide

/-- C11. Select-all: whatever the prior state, `QuotesReducer` on
`SELECT_ALL_CATEGORIES` returns a state whose `categories` has exactly the eight
category keys, each with value `true`, every other field being unchanged. -/
theorem QuotesReducer_selectAllCategories (state : State) (random : Nat) :
    ∃ s, QuotesReducer state selectAllCategories random = Except.ok s ∧
      s.categories.keys = categoryNames ∧
      (∀ k ∈ categoryNames, s.categories.get k = some true) ∧
      (∀ kv ∈ s.categories, kv.2 = true) ∧
      s.quotesLoaded = state.quotesLoaded ∧ s.currentQuote = state.currentQuote ∧
      s.isDarkBg = state.isDarkBg ∧ s.bgType = state.bgType ∧
      s.showFavorites = state.showFavorites := by
  have e1 : ¬ (SELECT_ALL_CATEGORIES = LOAD_QUOTES) := by decide
  have e2 : ¬ (SELECT_ALL_CATEGORIES = NEXT_QUOTE) := by decide
  have e3 : ¬ (SELECT_ALL_CATEGORIES = TOGGLE_BOOKMARK) := by decide
  have e4 : ¬ (SELECT_ALL_CATEGORIES = CHANGE_BG_TYPE) := by decide
  have e5 : ¬ (SELECT_ALL_CATEGORIES = TOGGLE_CATEGORY) := by decide
  simp only [QuotesReducer, selectAllCategories, e1, e2, e3, e4, e5, if_true, if_false]
  exact ⟨_, rfl, rfl, selectAll_get, selectAll_values, rfl, rfl, rfl, rfl, rfl⟩

/-- C12. An unrecognized action is the identity transition: when the type of
the action is none of the seven declared action types, `QuotesReducer` returns
the input state unchanged. -/
theorem QuotesReducer_unrecognized (state : State) (action : Action) (random : Nat)
    (h : action.type ∉ [LOAD_QUOTES, NEXT_QUOTE, TOGGLE_BOOKMARK, CHANGE_BG_TYPE,
      TOGGLE_CATEGORY, SELECT_ALL_CATEGORIES, TOGGLE_FAVORITES]) :
    QuotesReducer state action random = Except.ok state := by
  simp only [List.mem_cons, List.mem_singleton, List.not_mem_nil, or_false, not_or] at h
  obtain ⟨h1, h2, h3, h4, h5, h6, h7⟩ := h
  simp only [QuotesReducer, h1, h2, h3, h4, h5, h6, h7, if_false]

theorem QuotesReducer_unrecognized_witness :
    "@@redux/INIT" ∉ [LOAD_QUOTES, NEXT_QUOTE, TOGGLE_BOOKMARK, CHANGE_BG_TYPE,
      TOGGLE_CATEGORY, SELECT_ALL_CATEGORIES, TOGGLE_FAVORITES] ∧
    QuotesReducer twoCategoriesState
      { type := "@@redux/INIT", payload := JSValue.undefined } 1
        = Except.ok twoCategoriesState :=
  ⟨by decide,
    QuotesReducer_unrecognized twoCategoriesState
      { type := "@@redux/INIT", payload := JSValue.undefined } 1 (by decide)⟩

/-- C15. `NEXT_QUOTE` transition: `QuotesReducer` sets `currentQuote` to the
`nextQuote` of the payload and leaves `quotesLoaded`, `bgType`, `showFavorites`
and `categories` unchanged; `isDarkBg` is unchanged when `bgType` is not
`BG_RANDOM`, and when it is, `isDarkBg` is true exactly when the random draw
(0 or 1) is 1. -/
theorem QuotesReducer_nextQuote_transition (state : State) (snapshot : Quote)
    (index random : Nat) (hr : random = 0 ∨ random = 1) :
    ∃ s, QuotesReducer state
        { type := NEXT_QUOTE, payload := JSValue.nextQuotePayload snapshot index } random
        = Except.ok s ∧
      s.currentQuote = some snapshot ∧
      s.quotesLoaded = state.quotesLoaded ∧ s.bgType = state.bgType ∧
      s.showFavorites = state.showFavorites ∧ s.categories = state.categories ∧
      (state.bgType ≠ BG_TYPES.BG_RANDOM → s.isDarkBg = state.isDarkBg) ∧
      (state.bgType = BG_TYPES.BG_RANDOM → (s.isDarkBg = true ↔ random = 1)) := by
  have hne : ¬ (NEXT_QUOTE = LOAD_QUOTES) := by decide
  simp only [QuotesReducer, hne, if_true, if_false]
  refine ⟨_, rfl, rfl, rfl, rfl, rfl, rfl, ?_, ?_⟩
  · intro hb; simp [hb]
  · intro hb
    rcases hr with hr | hr <;> simp [hb, hr]

theorem QuotesReducer_nextQuote_transition_witness :
    ((1 : Nat) = 0 ∨ (1 : Nat) = 1) ∧
    ∃ s, QuotesReducer initialState
        { type := NEXT_QUOTE, payload := JSValue.nextQuotePayload (exampleShownA 1) 0 } 1
        = Except.ok s ∧
      s.currentQuote = some (exampleShownA 1) ∧
      s.quotesLoaded = initialState.quotesLoaded ∧ s.bgType = initialState.bgType ∧
      s.showFavorites = initialState.showFavorites ∧
      s.categories = initialState.categories ∧
      (initialState.bgType ≠ BG_TYPES.BG_RANDOM → s.isDarkBg = initialState.isDarkBg) ∧
      (initialState.bgType = BG_TYPES.BG_RANDOM → (s.isDarkBg = true ↔ 1 = 1)) :=
  ⟨Or.inr rfl,
    QuotesReducer_nextQuote_transition initialState (exampleShownA 1) 0 1 (Or.inr rfl)⟩

/-- C16. Preference toggles flip exactly their own flag. `TOGGLE_CATEGORY(name)`
(for every name, the eight known ones included) makes `categories[name]` the
negation of its former value, leaves every other entry as it was, keeps the key
list when `name` is already a key, and changes no other field;
`TOGGLE_FAVORITES` negates `showFavorites` and changes no other field. -/
theorem QuotesReducer_toggles (state : State) (name : String) (random : Nat) :
    (∃ s, QuotesReducer state (toggleCategory (JSValue.string name)) random = Except.ok s ∧
      s.categories.get name = some (!truthy (state.categories.get name)) ∧
      (∀ k, k ≠ name → s.categories.get k = state.categories.get k) ∧
      (name ∈ state.categories.keys → s.categories.keys = state.categories.keys) ∧
      s.quotesLoaded = state.quotesLoaded ∧ s.currentQuote = state.currentQuote ∧
      s.isDarkBg = state.isDarkBg ∧ s.bgType = state.bgType ∧
      s.showFavorites = state.showFavorites) ∧
    (∃ s, QuotesReducer state toggleFavorites random = Except.ok s ∧
      s.showFavorites = (!state.showFavorites) ∧
      s.quotesLoaded = state.quotesLoaded ∧ s.currentQuote = state.currentQuote ∧
      s.isDarkBg = state.isDarkBg ∧ s.bgType = state.bgType ∧
      s.categories = state.categories) := by
  constructor
  · have e1 : ¬ (TOGGLE_CATEGORY = LOAD_QUOTES) := by decide
    have e2 : ¬ (TOGGLE_CATEGORY = NEXT_QUOTE) := by decide
    have e3 : ¬ (TOGGLE_CATEGORY = TOGGLE_BOOKMARK) := by decide
    have e4 : ¬ (TOGGLE_CATEGORY = CHANGE_BG_TYPE) := by decide
    simp only [QuotesReducer, toggleCategory, JSValue.toPropertyKey, e1, e2, e3, e4, if_true,
      if_false]
    refine ⟨_, rfl, get_set_self _ _ _, ?_, ?_, rfl, rfl, rfl, rfl, rfl⟩
    · intro k hk
      exact get_set_ne _ _ _ _ hk
    · intro hk
      exact keys_set_of_mem _ _ _ hk
  · have e1 : ¬ (TOGGLE_FAVORITES = LOAD_QUOTES) := by decide
    have e2 : ¬ (TOGGLE_FAVORITES = NEXT_QUOTE) := by decide
    have e3 : ¬ (TOGGLE_FAVORITES = TOGGLE_BOOKMARK) := by decide
    have e4 : ¬ (TOGGLE_FAVORITES = CHANGE_BG_TYPE) := by decide
    have e5 : ¬ (TOGGLE_FAVORITES = TOGGLE_CATEGORY) := by decide
    have e6 : ¬ (TOGGLE_FAVORITES = SELECT_ALL_CATEGORIES) := by decide
    simp only [QuotesReducer, toggleFavorites, e1, e2, e3, e4, e5, e6, if_true, if_false]
    exact ⟨_, rfl, rfl, rfl, rfl, rfl, rfl, rfl⟩

/-- C17. `TOGGLE_BOOKMARK` transition: in a state whose `currentQuote` is a
snapshot `q`, `QuotesReducer` returns the state with `currentQuote.bookmarked`
negated, the other fields of `currentQuote` (id, quote, author, category,
displayedTimes) and every other field of the state being unchanged. -/
theorem QuotesReducer_bookmark_transition (state : State) (q : Quote) (random : Nat)
    (h : state.currentQuote = some q) :
    ∃ (s : State) (q1 : Quote),
      QuotesReducer state { type := TOGGLE_BOOKMARK, payload := JSValue.undefined } random
        = Except.ok s ∧
      s.currentQuote = some q1 ∧ q1.bookmarked = (!q.bookmarked) ∧
      q1.id = q.id ∧ q1.quote = q.quote ∧ q1.author = q.author ∧
      q1.category = q.category ∧ q1.displayedTimes = q.displayedTimes ∧
      s.quotesLoaded = state.quotesLoaded ∧ s.isDarkBg = state.isDarkBg ∧
      s.bgType = state.bgType ∧ s.showFavorites = state.showFavorites ∧
      s.categories = state.categories := by
  have e1 : ¬ (TOGGLE_BOOKMARK = LOAD_QUOTES) := by decide
  have e2 : ¬ (TOGGLE_BOOKMARK = NEXT_QUOTE) := by decide
  simp only [QuotesReducer, e1, e2, if_true, if_false, h]
  exact ⟨_, _, rfl, rfl, rfl, rfl, rfl, rfl, rfl, rfl, rfl, rfl, rfl, rfl, rfl⟩

theorem QuotesReducer_bookmark_transition_witness :
    ({ initialState with currentQuote := some (exampleShownA 1) } : State).currentQuote
      = some (exampleShownA 1) ∧
    ∃ (s : State) (q1 : Quote),
      QuotesReducer { initialState with currentQuote := some (exampleShownA 1) }
        { type := TOGGLE_BOOKMARK, payload := JSValue.undefined } 0 = Except.ok s ∧
      s.currentQuote = some q1 ∧ q1.bookmarked = (!(exampleShownA 1).bookmarked) ∧
      q1.id = (exampleShownA 1).id ∧ q1.quote = (exampleShownA 1).quote ∧
      q1.author = (exampleShownA 1).author ∧
      q1.category = (exampleShownA 1).category ∧
      q1.displayedTimes = (exampleShownA 1).displayedTimes ∧
      s.quotesLoaded = initialState.quotesLoaded ∧ s.isDarkBg = initialState.isDarkBg ∧
      s.bgType = initialState.bgType ∧ s.showFavorites = initialState.showFavorites ∧
      s.categories = initialState.categories :=
  ⟨rfl, QuotesReducer_bookmark_transition
    { initialState with currentQuote := some (exampleShownA 1) } (exampleShownA 1) 0 rfl⟩

/-! ## Claims on seeding and on the life of the rows -/

theorem forEachCreate_eq (quotes : List QuoteData) (index : Nat) (realm : Realm) :
    forEachCreate quotes index realm
      = realm ++ (quotes.enumFrom index).map (fun x => createQuote x.2 x.1) := by
  induction quotes generalizing index realm with
  | nil => simp [forEachCreate]
  | cons d rest ih =>
    simp only [forEachCreate, ih, List.enumFrom_cons, List.map_cons, List.append_assoc,
      List.singleton_append]

theorem loadQuotes_getElem? (quotes : List QuoteData) (i : Nat) :
    (loadQuotes quotes []).1[i]? = quotes[i]?.map (fun d => createQuote d i) := by
  simp only [loadQuotes, forEachCreate_eq, List.nil_append, List.getElem?_map,
    List.getElem?_enumFrom, Option.map_map]
  cases quotes[i]? <;> simp

/-- C13 (as stated, refuted). A record whose author is present but empty is
stored with the author `Unknown`, not with the author of the input. -/
theorem loadQuotes_empty_author :
    ∃ (d : QuoteData) (q : Quote), emptyAuthorQuotes[0]? = some d ∧
      (loadQuotes emptyAuthorQuotes []).1[0]? = some q ∧
      d.author = some "" ∧ q.author = "Unknown" ∧ ¬ (some q.author = d.author) :=
  ⟨_, _, rfl, rfl, rfl, rfl, by decide⟩

/-- C13 (amended). Seeding an empty store from `N` records gives exactly `N`
rows; the row made from the `i`-th record has id `i`, the quote and category of
the record, `displayedTimes = 0`, `bookmarked = false`, and as author the
author of the record, or `Unknown` when that author is absent or is the empty
string; the ids are pairwise distinct. -/
theorem loadQuotes_seeds (quotes : List QuoteData) :
    (loadQuotes quotes []).1.length = quotes.length ∧
    (∀ (i : Nat) (d : QuoteData), quotes[i]? = some d →
      ∃ q : Quote, (loadQuotes quotes []).1[i]? = some q ∧
        q.id = i ∧ q.quote = d.quote ∧ q.category = d.category ∧
        (d.author = none ∨ d.author = some "" → q.author = "Unknown") ∧
        (∀ a : String, d.author = some a → a ≠ "" → q.author = a) ∧
        q.displayedTimes = 0 ∧ q.bookmarked = false) ∧
    ((loadQuotes quotes []).1.map (fun q => q.id)).Nodup := by
  refine ⟨?_, ?_, ?_⟩
  · simp [loadQuotes, forEachCreate_eq]
  · intro i d hd
    refine ⟨createQuote d i, ?_, rfl, rfl, rfl, ?_, ?_, rfl, rfl⟩
    · rw [loadQuotes_getElem?, hd]; rfl
    · intro ha
      rcases ha with ha | ha <;> simp [createQuote, ha]
    · intro a ha hne
      simp [createQuote, ha, hne]
  · have hmap : (loadQuotes quotes []).1.map (fun q => q.id)
        = List.range' 0 quotes.length := by
      simp only [loadQuotes, forEachCreate_eq, List.nil_append, List.map_map]
      rw [← List.enumFrom_map_fst 0 quotes]
      rfl
    rw [hmap]
    exact List.nodup_range' 0 quotes.length

theorem getElem?_set_cases (realm : Realm) (row : Nat) (q0 q1 : Quote)
    (hrow : realm[row]? = some q0) (i : Nat) (q : Quote) (hq : realm[i]? = some q) :
    (i = row ∧ q = q0 ∧ (realm.set row q1)[i]? = some q1) ∨
      (i ≠ row ∧ (realm.set row q1)[i]? = some q) := by
  by_cases hi : i = row
  · left
    subst hi
    rw [hrow] at hq
    have hlt : i < realm.length := (List.getElem?_eq_some_iff.1 hrow).1
    exact ⟨rfl, (Option.some.inj hq).symm, List.getElem?_set_self hlt⟩
  · right
    exact ⟨hi, by rw [List.getElem?_set_ne (Ne.symm hi)]; exact hq⟩

theorem toggleBookmarkWrite_ok (quoteToBookmark : Quote) (realm realm1 : Realm)
    (h : toggleBookmarkWrite quoteToBookmark realm = Except.ok realm1) :
    ∃ (row : Nat) (q : Quote), realm[row]? = some q ∧ q.id = quoteToBookmark.id ∧
      realm1 = realm.set row { q with bookmarked := !q.bookmarked } := by
  unfold toggleBookmarkWrite at h
  cases hh : (filteredById (objects realm) quoteToBookmark.id).head? with
  | none => simp [hh] at h
  | some x =>
    obtain ⟨row, q⟩ := x
    simp only [hh, Except.ok.injEq] at h
    have hmem : (row, q) ∈ filteredById (objects realm) quoteToBookmark.id :=
      List.mem_of_mem_head? hh
    simp only [filteredById, List.mem_filter, decide_eq_true_eq] at hmem
    exact ⟨row, q, List.mk_mem_enum_iff_getElem?.1 hmem.1, hmem.2, h.symm⟩

/-- C14. Store lifecycle: the store writes of `newQuote` and of
`toggleBookmark` keep the number of rows and, row by row, the id, quote, author
and category; `newQuote` keeps every `bookmarked` flag and lowers no
`displayedTimes`; `toggleBookmark` keeps every `displayedTimes`. Hence the list
of ids of the store never changes. -/
theorem store_lifecycle (state : State) (quoteToBookmark : Quote) (realm : Realm) :
    (∀ (realm1 : Realm) (action : Action),
      newQuote state realm = Except.ok (realm1, action) →
      realm1.length = realm.length ∧
      ∀ (i : Nat) (q : Quote), realm[i]? = some q →
        ∃ q1 : Quote, realm1[i]? = some q1 ∧ q1.id = q.id ∧ q1.quote = q.quote ∧
          q1.author = q.author ∧ q1.category = q.category ∧
          q1.bookmarked = q.bookmarked ∧ q.displayedTimes ≤ q1.displayedTimes) ∧
    (∀ realm1 : Realm, toggleBookmarkWrite quoteToBookmark realm = Except.ok realm1 →
      realm1.length = realm.length ∧
      ∀ (i : Nat) (q : Quote), realm[i]? = some q →
        ∃ q1 : Quote, realm1[i]? = some q1 ∧ q1.id = q.id ∧ q1.quote = q.quote ∧
          q1.author = q.author ∧ q1.category = q.category ∧
          q1.displayedTimes = q.displayedTimes) := by
  constructor
  · intro realm1 action h
    obtain ⟨gs, row, q0, _, hrow, _, _, hr, _⟩ := newQuote_selects state realm realm1 action h
    subst hr
    refine ⟨List.length_set _ _ _, ?_⟩
    intro i q hq
    rcases getElem?_set_cases realm row q0
      { q0 with displayedTimes := q0.displayedTimes + 1 } hrow i q hq with h1 | h1
    · obtain ⟨_, hq0, hset⟩ := h1
      subst hq0
      exact ⟨_, hset, rfl, rfl, rfl, rfl, rfl, Nat.le_succ _⟩
    · exact ⟨q, h1.2, rfl, rfl, rfl, rfl, rfl, le_refl _⟩
  · intro realm1 h
    obtain ⟨row, q0, hrow, _, hr⟩ := toggleBookmarkWrite_ok quoteToBookmark realm realm1 h
    subst hr
    refine ⟨List.length_set _ _ _, ?_⟩
    intro i q hq
    rcases getElem?_set_cases realm row q0
      { q0 with bookmarked := !q0.bookmarked } hrow i q hq with h1 | h1
    · obtain ⟨_, hq0, hset⟩ := h1
      subst hq0
      exact ⟨_, hset, rfl, rfl, rfl, rfl, rfl⟩
    · exact ⟨q, h1.2, rfl, rfl, rfl, rfl, rfl⟩

theorem store_lifecycle_witness :
    newQuote initialState exampleRealm = Except.ok (exampleShown.1, exampleShown.2) ∧
    toggleBookmarkWrite (exampleShownA 0) exampleRealm = Except.ok exampleBookmarked ∧
    (exampleShown.1.length = exampleRealm.length ∧
      ∀ (i : Nat) (q : Quote), exampleRealm[i]? = some q →
        ∃ q1 : Quote, exampleShown.1[i]? = some q1 ∧ q1.id = q.id ∧ q1.quote = q.quote ∧
          q1.author = q.author ∧ q1.category = q.category ∧
          q1.bookmarked = q.bookmarked ∧ q.displayedTimes ≤ q1.displayedTimes) ∧
    (exampleBookmarked.length = exampleRealm.length ∧
      ∀ (i : Nat) (q : Quote), exampleRealm[i]? = some q →
        ∃ q1 : Quote, exampleBookmarked[i]? = some q1 ∧ q1.id = q.id ∧
          q1.quote = q.quote ∧ q1.author = q.author ∧ q1.category = q.category ∧
          q1.displayedTimes = q.displayedTimes) :=
  ⟨rfl, rfl,
    (store_lifecycle initialState (exampleShownA 0) exampleRealm).1
      exampleShown.1 exampleShown.2 rfl,
    (store_lifecycle initialState (exampleShownA 0) exampleRealm).2 exampleBookmarked rfl⟩

/-! ## Invariants of the reachable preference states -/

/-- The shapes of the state that a dispatch returns, by action type. -/
theorem QuotesReducer_ok (s s1 : State) (a : Action) (random : Nat)
    (h : QuotesReducer s a random = Except.ok s1) :
    (a.type = LOAD_QUOTES ∧ s1 = { s with quotesLoaded := true }) ∨
    (a.type = NEXT_QUOTE ∧ ∃ cq : Option Quote,
      s1 = { s with
        currentQuote := cq
        isDarkBg := if s.bgType = BG_TYPES.BG_RANDOM then decide (random ≠ 0)
          else s.isDarkBg }) ∨
    (a.type = TOGGLE_BOOKMARK ∧ ∃ q : Quote, s.currentQuote = some q ∧
      s1 = { s with currentQuote := some { q with bookmarked := !q.bookmarked } }) ∨
    (a.type = CHANGE_BG_TYPE ∧
      s1 = { s with
        bgType := a.payload
        isDarkBg := if a.payload = BG_TYPES.BG_WHITE then false
          else (if a.payload = BG_TYPES.BG_RANDOM then s.isDarkBg else true) }) ∨
    (a.type = TOGGLE_CATEGORY ∧
      s1 = { s with
        categories := s.categories.set a.payload.toPropertyKey
          (!truthy (s.categories.get a.payload.toPropertyKey)) }) ∨
    (a.type = SELECT_ALL_CATEGORIES ∧
      s1 = { s with
        categories :=
          [("inspire", true), ("management", true), ("sports", true), ("life", true),
           ("funny", true), ("love", true), ("art", true), ("students", true)] }) ∨
    (a.type = TOGGLE_FAVORITES ∧ s1 = { s with showFavorites := !s.showFavorites }) ∨
    s1 = s := by
  unfold QuotesReducer at h
  by_cases h1 : a.type = LOAD_QUOTES
  · rw [if_pos h1] at h
    exact Or.inl ⟨h1, (Except.ok.inj h).symm⟩
  rw [if_neg h1] at h
  by_cases h2 : a.type = NEXT_QUOTE
  · rw [if_pos h2] at h
    refine Or.inr (Or.inl ⟨h2, ?_⟩)
    cases hp : a.payload with
    | undefined => rw [hp] at h; cases h
    | string str => rw [hp] at h; exact ⟨none, (Except.ok.inj h).symm⟩
    | nextQuotePayload q i => rw [hp] at h; exact ⟨some q, (Except.ok.inj h).symm⟩
  rw [if_neg h2] at h
  by_cases h3 : a.type = TOGGLE_BOOKMARK
  · rw [if_pos h3] at h
    refine Or.inr (Or.inr (Or.inl ⟨h3, ?_⟩))
    cases hc : s.currentQuote with
    | none => rw [hc] at h; cases h
    | some q => rw [hc] at h; exact ⟨q, rfl, (Except.ok.inj h).symm⟩
  rw [if_neg h3] at h
  by_cases h4 : a.type = CHANGE_BG_TYPE
  · rw [if_pos h4] at h
    exact Or.inr (Or.inr (Or.inr (Or.inl ⟨h4, (Except.ok.inj h).symm⟩)))
  rw [if_neg h4] at h
  by_cases h5 : a.type = TOGGLE_CATEGORY
  · rw [if_pos h5] at h
    exact Or.inr (Or.inr (Or.inr (Or.inr (Or.inl ⟨h5, (Except.ok.inj h).symm⟩))))
  rw [if_neg h5] at h
  by_cases h6 : a.type = SELECT_ALL_CATEGORIES
  · rw [if_pos h6] at h
    exact Or.inr (Or.inr (Or.inr (Or.inr (Or.inr (Or.inl ⟨h6, (Except.ok.inj h).symm⟩)))))
  rw [if_neg h6] at h
  by_cases h7 : a.type = TOGGLE_FAVORITES
  · rw [if_pos h7] at h
    exact Or.inr (Or.inr (Or.inr (Or.inr (Or.inr (Or.inr
      (Or.inl ⟨h7, (Except.ok.inj h).symm⟩))))))
  rw [if_neg h7] at h
  exact Or.inr (Or.inr (Or.inr (Or.inr (Or.inr (Or.inr (Or.inr (Except.ok.inj h).symm))))))

/-- One dispatch keeps the key list of `categories` when a `TOGGLE_CATEGORY`
payload names one of the present keys. -/
theorem QuotesReducer_category_keys (s s1 : State) (a : Action) (random : Nat)
    (h : QuotesReducer s a random = Except.ok s1)
    (ha : a.type = TOGGLE_CATEGORY → ∃ name ∈ categoryNames, a.payload = JSValue.string name)
    (hs : s.categories.keys = categoryNames) :
    s1.categories.keys = categoryNames := by
  rcases QuotesReducer_ok s s1 a random h with
    ⟨_, e⟩ | ⟨_, _, e⟩ | ⟨_, _, _, e⟩ | ⟨_, e⟩ | ⟨h5, e⟩ | ⟨_, e⟩ | ⟨_, e⟩ | e
  · rw [e]; exact hs
  · rw [e]; exact hs
  · rw [e]; exact hs
  · rw [e]; exact hs
  · obtain ⟨name, hname, hp⟩ := ha h5
    rw [e, hp]
    simp only [JSValue.toPropertyKey]
    rw [keys_set_of_mem _ _ _ (by rw [hs]; exact hname)]
    exact hs
  · rw [e]; rfl
  · rw [e]; exact hs
  · rw [e]; exact hs

/-- C18. The key set of `categories` is fixed: in every state that a sequence
of dispatches reaches from `initialState`, every `TOGGLE_CATEGORY` payload being
one of the eight category names (the other actions are arbitrary, the declared
ones included), the keys of `categories` are exactly the eight names, each with
a boolean value. -/
theorem dispatchAll_category_keys (actions : List (Action × Nat)) (s : State)
    (ha : ∀ x ∈ actions, x.1.type = TOGGLE_CATEGORY →
      ∃ name ∈ categoryNames, x.1.payload = JSValue.string name)
    (h : dispatchAll actions initialState = Except.ok s) :
    s.categories.keys = categoryNames ∧
      ∀ k ∈ categoryNames, ∃ v : Bool, s.categories.get k = some v := by
  have key : ∀ (actions : List (Action × Nat)) (s0 s : State),
      (∀ x ∈ actions, x.1.type = TOGGLE_CATEGORY →
        ∃ name ∈ categoryNames, x.1.payload = JSValue.string name) →
      s0.categories.keys = categoryNames →
      dispatchAll actions s0 = Except.ok s → s.categories.keys = categoryNames := by
    intro actions
    induction actions with
    | nil =>
      intro s0 s _ h0 hrun
      simp only [dispatchAll, Except.ok.injEq] at hrun
      rw [← hrun]; exact h0
    | cons x rest ih =>
      intro s0 s hall h0 hrun
      obtain ⟨a, r⟩ := x
      simp only [dispatchAll] at hrun
      cases hstep : QuotesReducer s0 a r with
      | error e => rw [hstep] at hrun; cases hrun
      | ok s1 =>
        rw [hstep] at hrun
        exact ih s1 s (fun y hy => hall y (List.mem_cons_of_mem _ hy))
          (QuotesReducer_category_keys s0 s1 a r hstep
            (hall (a, r) (List.mem_cons_self _ _)) h0) hrun
  have hkeys := key actions initialState s ha rfl h
  refine ⟨hkeys, ?_⟩
  intro k hk
  have hmem : k ∈ s.categories.keys := by rw [hkeys]; exact hk
  simp only [BoolObject.keys, List.mem_map] at hmem
  obtain ⟨kv, hkv, hfst⟩ := hmem
  cases hget : s.categories.get k with
  | some v => exact ⟨v, rfl⟩
  | none =>
    exfalso
    have hnone : ∀ (o : BoolObject), o.get k = none → ∀ kv ∈ o, kv.1 ≠ k := by
      intro o
      induction o with
      | nil => intro _ kv hkv; simp at hkv
      | cons p rest ih =>
        intro ho kv hkv
        obtain ⟨k1, v1⟩ := p
        by_cases hk1 : k1 = k
        · simp [BoolObject.get, hk1] at ho
        · simp only [BoolObject.get, hk1, if_false] at ho
          rcases List.mem_cons.1 hkv with hkv | hkv
          · subst hkv; exact hk1
          · exact ih ho kv hkv
    exact hnone _ hget kv hkv hfst

theorem dispatchAll_category_keys_witness :
    (∀ x ∈ [(toggleCategory (JSValue.string "funny"), 0), (selectAllCategories, 1),
        (toggleCategory (JSValue.string "art"), 0)],
      x.1.type = TOGGLE_CATEGORY →
        ∃ name ∈ categoryNames, x.1.payload = JSValue.string name) ∧
    (∃ s, dispatchAll [(toggleCategory (JSValue.string "funny"), 0), (selectAllCategories, 1),
        (toggleCategory (JSValue.string "art"), 0)] initialState = Except.ok s ∧
      s.categories.keys = categoryNames ∧
      ∀ k ∈ categoryNames, ∃ v : Bool, s.categories.get k = some v) :=
  have ha : ∀ x ∈ [(toggleCategory (JSValue.string "funny"), 0), (selectAllCategories, 1),
      (toggleCategory (JSValue.string "art"), 0)],
      x.1.type = TOGGLE_CATEGORY →
        ∃ name ∈ categoryNames, x.1.payload = JSValue.string name := by
    intro x hx hx2
    simp only [List.mem_cons, List.mem_singleton, List.not_mem_nil, or_false] at hx
    rcases hx with hx | hx | hx
    · subst hx; exact ⟨"funny", by decide, rfl⟩
    · subst hx; exact absurd hx2 (by decide)
    · subst hx; exact ⟨"art", by decide, rfl⟩
  ⟨ha, _, rfl, dispatchAll_category_keys _ _ ha rfl⟩

/-- One dispatch keeps the coherence of `bgType` and `isDarkBg`. -/
theorem QuotesReducer_background (s s1 : State) (a : Action) (random : Nat)
    (h : QuotesReducer s a random = Except.ok s1)
    (hs : (s.bgType = BG_TYPES.BG_WHITE → s.isDarkBg = false) ∧
      (s.bgType = BG_TYPES.BG_BLACK → s.isDarkBg = true)) :
    (s1.bgType = BG_TYPES.BG_WHITE → s1.isDarkBg = false) ∧
      (s1.bgType = BG_TYPES.BG_BLACK → s1.isDarkBg = true) := by
  have w1 : ¬ (BG_TYPES.BG_BLACK = BG_TYPES.BG_WHITE) := by decide
  have w2 : ¬ (BG_TYPES.BG_WHITE = BG_TYPES.BG_RANDOM) := by decide
  have w3 : ¬ (BG_TYPES.BG_BLACK = BG_TYPES.BG_RANDOM) := by decide
  have next : ∀ b : Bool,
      (s.bgType = BG_TYPES.BG_WHITE →
        (if s.bgType = BG_TYPES.BG_RANDOM then b else s.isDarkBg) = false) ∧
      (s.bgType = BG_TYPES.BG_BLACK →
        (if s.bgType = BG_TYPES.BG_RANDOM then b else s.isDarkBg) = true) := by
    intro b
    constructor
    · intro hw
      rw [if_neg (by rw [hw]; exact w2)]
      exact hs.1 hw
    · intro hb
      rw [if_neg (by rw [hb]; exact w3)]
      exact hs.2 hb
  rcases QuotesReducer_ok s s1 a random h with
    ⟨_, e⟩ | ⟨_, _, e⟩ | ⟨_, _, _, e⟩ | ⟨_, e⟩ | ⟨_, e⟩ | ⟨_, e⟩ | ⟨_, e⟩ | e
  · rw [e]; exact hs
  · rw [e]; exact next _
  · rw [e]; exact hs
  · rw [e]
    constructor
    · intro hw
      change a.payload = BG_TYPES.BG_WHITE at hw
      simp [hw]
    · intro hb
      change a.payload = BG_TYPES.BG_BLACK at hb
      simp [hb, w1, w3]
  · rw [e]; exact hs
  · rw [e]; exact hs
  · rw [e]; exact hs
  · rw [e]; exact hs

/-- C19. Background coherence: in every state that a sequence of dispatches
(any actions, any payloads, any random draws) reaches from `initialState`,
`bgType = BG_WHITE` implies `isDarkBg = false` and `bgType = BG_BLACK` implies
`isDarkBg = true`. -/
theorem dispatchAll_background (actions : List (Action × Nat)) (s : State)
    (h : dispatchAll actions initialState = Except.ok s) :
    (s.bgType = BG_TYPES.BG_WHITE → s.isDarkBg = false) ∧
      (s.bgType = BG_TYPES.BG_BLACK → s.isDarkBg = true) := by
  have key : ∀ (actions : List (Action × Nat)) (s0 s : State),
      ((s0.bgType = BG_TYPES.BG_WHITE → s0.isDarkBg = false) ∧
        (s0.bgType = BG_TYPES.BG_BLACK → s0.isDarkBg = true)) →
      dispatchAll actions s0 = Except.ok s →
      (s.bgType = BG_TYPES.BG_WHITE → s.isDarkBg = false) ∧
        (s.bgType = BG_TYPES.BG_BLACK → s.isDarkBg = true) := by
    intro actions
    induction actions with
    | nil =>
      intro s0 s h0 hrun
      simp only [dispatchAll, Except.ok.injEq] at hrun
      rw [← hrun]; exact h0
    | cons x rest ih =>
      intro s0 s h0 hrun
      obtain ⟨a, r⟩ := x
      simp only [dispatchAll] at hrun
      cases hstep : QuotesReducer s0 a r with
      | error e => rw [hstep] at hrun; cases hrun
      | ok s1 =>
        rw [hstep] at hrun
        exact ih s1 s (QuotesReducer_background s0 s1 a r hstep h0) hrun
  exact key actions initialState s ⟨fun hw => rfl, fun hb => absurd hb (by decide)⟩ h

theorem dispatchAll_background_witness :
    dispatchAll exampleBlackActions initialState = Except.ok exampleBlackState ∧
    exampleBlackState.bgType = BG_TYPES.BG_BLACK ∧
    ((exampleBlackState.bgType = BG_TYPES.BG_WHITE → exampleBlackState.isDarkBg = false) ∧
      (exampleBlackState.bgType = BG_TYPES.BG_BLACK → exampleBlackState.isDarkBg = true)) :=
  ⟨rfl, rfl, dispatchAll_background exampleBlackActions exampleBlackState rfl⟩

/-! ## The current quote and the store -/

/-- Writing a row of the same id in place keeps ids equal to row positions. -/
theorem set_ids (realm : Realm) (row : Nat) (q0 q1 : Quote)
    (hids : ∀ (i : Nat) (q : Quote), realm[i]? = some q → q.id = i)
    (hrow : realm[row]? = some q0) (hid : q1.id = q0.id) :
    (∀ (i : Nat) (q : Quote), (realm.set row q1)[i]? = some q → q.id = i) ∧
      (realm.set row q1)[q1.id]? = some q1 := by
  have hlt : row < realm.length := (List.getElem?_eq_some_iff.1 hrow).1
  have hq0 : q0.id = row := hids row q0 hrow
  constructor
  · intro i q hq
    by_cases hi : i = row
    · subst hi
      rw [List.getElem?_set_self hlt] at hq
      rw [← Option.some.inj hq, hid, hq0]
    · rw [List.getElem?_set_ne (Ne.symm hi)] at hq
      exact hids i q hq
  · rw [hid, hq0, List.getElem?_set_self hlt]

theorem QuotesReducer_bookmark_some (s : State) (q : Quote) (random : Nat)
    (h : s.currentQuote = some q) :
    QuotesReducer s { type := TOGGLE_BOOKMARK, payload := JSValue.undefined } random
      = Except.ok { s with currentQuote := some { q with bookmarked := !q.bookmarked } } := by
  have e1 : ¬ (TOGGLE_BOOKMARK = LOAD_QUOTES) := by decide
  have e2 : ¬ (TOGGLE_BOOKMARK = NEXT_QUOTE) := by decide
  simp only [QuotesReducer, e1, e2, if_true, if_false, h]

theorem dispatchPure_currentQuote (a : Action) (random : Nat) (sr sr1 : State × Realm)
    (ha : a.type = CHANGE_BG_TYPE ∨ a.type = TOGGLE_CATEGORY ∨
      a.type = SELECT_ALL_CATEGORIES ∨ a.type = TOGGLE_FAVORITES)
    (h : dispatchPure a random sr = Except.ok sr1) :
    sr1.1.currentQuote = sr.1.currentQuote ∧ sr1.2 = sr.2 := by
  unfold dispatchPure at h
  cases hstep : QuotesReducer sr.1 a random with
  | error e => rw [hstep] at h; cases h
  | ok s1 =>
    rw [hstep] at h
    have hsr : sr1 = (s1, sr.2) := (Except.ok.inj h).symm
    subst hsr
    refine ⟨?_, rfl⟩
    have n1 : a.type ≠ LOAD_QUOTES := by
      rcases ha with e | e | e | e <;> rw [e] <;> decide
    have n2 : a.type ≠ NEXT_QUOTE := by
      rcases ha with e | e | e | e <;> rw [e] <;> decide
    have n3 : a.type ≠ TOGGLE_BOOKMARK := by
      rcases ha with e | e | e | e <;> rw [e] <;> decide
    rcases QuotesReducer_ok sr.1 s1 a random hstep with
      ⟨t, _⟩ | ⟨t, _⟩ | ⟨t, _⟩ | ⟨_, e⟩ | ⟨_, e⟩ | ⟨_, e⟩ | ⟨_, e⟩ | e
    · exact absurd t n1
    · exact absurd t n2
    · exact absurd t n3
    · rw [e]
    · rw [e]
    · rw [e]
    · rw [e]
    · rw [e]

/-- One operation keeps: ids equal to row positions, and the current quote, if
any, equal to the row at its id. -/
theorem perform_currentQuote (op : Operation) (random : Nat) (sr sr1 : State × Realm)
    (h : perform op random sr = Except.ok sr1)
    (hids : ∀ (i : Nat) (q : Quote), sr.2[i]? = some q → q.id = i)
    (hcq : ∀ cq : Quote, sr.1.currentQuote = some cq → sr.2[cq.id]? = some cq) :
    (∀ (i : Nat) (q : Quote), sr1.2[i]? = some q → q.id = i) ∧
      (∀ cq : Quote, sr1.1.currentQuote = some cq → sr1.2[cq.id]? = some cq) := by
  obtain ⟨s, realm⟩ := sr
  have pure : ∀ a : Action,
      (a.type = CHANGE_BG_TYPE ∨ a.type = TOGGLE_CATEGORY ∨
        a.type = SELECT_ALL_CATEGORIES ∨ a.type = TOGGLE_FAVORITES) →
      dispatchPure a random (s, realm) = Except.ok sr1 →
      (∀ (i : Nat) (q : Quote), sr1.2[i]? = some q → q.id = i) ∧
        (∀ cq : Quote, sr1.1.currentQuote = some cq → sr1.2[cq.id]? = some cq) := by
    intro a ha hd
    obtain ⟨h1, h2⟩ := dispatchPure_currentQuote a random (s, realm) sr1 ha hd
    rw [h1, h2]
    exact ⟨hids, hcq⟩
  cases op with
  | newQuote =>
    simp only [perform, newQuoteDispatch] at h
    cases hnq : newQuote s realm with
    | error e => rw [hnq] at h; cases h
    | ok ra =>
      obtain ⟨realm1, action⟩ := ra
      rw [hnq] at h
      obtain ⟨gs, row, q, _, hrow, _, _, hr, hact⟩ :=
        newQuote_selects s realm realm1 action hnq
      obtain ⟨s1, hred, _, _, hcur⟩ := QuotesReducer_nextQuote s
        { q with displayedTimes := q.displayedTimes + 1 } q.id random
      rw [hact] at h
      simp only [hred] at h
      have hsr : sr1 = (s1, realm1) := (Except.ok.inj h).symm
      subst hsr
      obtain ⟨hi1, hi2⟩ := set_ids realm row q
        { q with displayedTimes := q.displayedTimes + 1 } hids hrow rfl
      rw [← hr] at hi1 hi2
      refine ⟨hi1, ?_⟩
      intro cq hc
      rw [hcur] at hc
      rw [← Option.some.inj hc]
      exact hi2
  | toggleBookmark =>
    simp only [perform] at h
    cases hc : s.currentQuote with
    | none => rw [hc] at h; cases h
    | some cq =>
      rw [hc] at h
      simp only [toggleBookmark] at h
      rw [QuotesReducer_bookmark_some s cq random hc] at h
      cases hw : toggleBookmarkWrite cq realm with
      | error e => simp only [hw] at h; cases h
      | ok realm1 =>
        simp only [hw] at h
        have hsr : sr1 = ({ s with currentQuote := some { cq with bookmarked := !cq.bookmarked } },
            realm1) := (Except.ok.inj h).symm
        subst hsr
        obtain ⟨row, q0, hrow, hq0id, hr⟩ := toggleBookmarkWrite_ok cq realm realm1 hw
        have hrowid : row = cq.id := by rw [← hq0id]; exact (hids row q0 hrow).symm
        have hq0 : q0 = cq := by
          have := hcq cq hc
          rw [← hrowid, hrow] at this
          exact Option.some.inj this
        subst hq0
        obtain ⟨hi1, hi2⟩ := set_ids realm row q0
          { q0 with bookmarked := !q0.bookmarked } hids hrow rfl
        rw [← hr] at hi1 hi2
        refine ⟨hi1, ?_⟩
        intro cq2 hc2
        have hc3 : some ({ q0 with bookmarked := !q0.bookmarked } : Quote) = some cq2 := hc2
        rw [← Option.some.inj hc3]
        exact hi2
  | changeBgType p => exact pure (changeBgType p) (Or.inl rfl) h
  | toggleCategory c => exact pure (toggleCategory c) (Or.inr (Or.inl rfl)) h
  | selectAllCategories => exact pure selectAllCategories (Or.inr (Or.inr (Or.inl rfl))) h
  | toggleFavorites => exact pure toggleFavorites (Or.inr (Or.inr (Or.inr rfl))) h

theorem performAll_invariant (ops : List (Operation × Nat)) (sr sr1 : State × Realm)
    (h : performAll ops sr = Except.ok sr1)
    (hids : ∀ (i : Nat) (q : Quote), sr.2[i]? = some q → q.id = i)
    (hcq : ∀ cq : Quote, sr.1.currentQuote = some cq → sr.2[cq.id]? = some cq) :
    (∀ (i : Nat) (q : Quote), sr1.2[i]? = some q → q.id = i) ∧
      (∀ cq : Quote, sr1.1.currentQuote = some cq → sr1.2[cq.id]? = some cq) := by
  induction ops generalizing sr with
  | nil =>
    simp only [performAll, Except.ok.injEq] at h
    rw [← h]; exact ⟨hids, hcq⟩
  | cons x rest ih =>
    obtain ⟨op, r⟩ := x
    simp only [performAll] at h
    cases hstep : perform op r sr with
    | error e => rw [hstep] at h; cases h
    | ok sr2 =>
      rw [hstep] at h
      obtain ⟨h1, h2⟩ := perform_currentQuote op r sr sr2 hstep hids hcq
      exact ih sr2 h h1 h2

/-- When every operation is completed before the next one starts, the current
quote is `null`, or it is a row of the store, equal to every row with its id. -/
theorem performAll_currentQuote (quotes : List QuoteData) (ops : List (Operation × Nat))
    (s : State) (realm : Realm)
    (h : performAll ops (initialState, (loadQuotes quotes []).1) = Except.ok (s, realm)) :
    s.currentQuote = none ∨
      ∃ cq : Quote, s.currentQuote = some cq ∧ cq ∈ realm ∧
        ∀ q ∈ realm, q.id = cq.id → q = cq := by
  obtain ⟨hids, hcq⟩ := performAll_invariant ops (initialState, (loadQuotes quotes []).1)
    (s, realm) h (loadQuotes_ids quotes) (fun cq hc => by cases hc)
  cases hc : s.currentQuote with
  | none => exact Or.inl rfl
  | some cq =>
    right
    have hrow : realm[cq.id]? = some cq := hcq cq hc
    refine ⟨cq, rfl, List.getElem?_mem hrow, ?_⟩
    intro q hq hid
    obtain ⟨j, hj⟩ := List.getElem?_of_mem hq
    have hjid : j = cq.id := by rw [← hid]; exact (hids j q hj).symm
    rw [hjid, hrow] at hj
    exact (Option.some.inj hj).symm

/-! ## Overlapping thunks -/

theorem occurAll_append (l1 l2 : List (Event × Nat)) (app : App) :
    occurAll (l1 ++ l2) app =
      match occurAll l1 app with
      | Except.error e => Except.error e
      | Except.ok app1 => occurAll l2 app1 := by
  induction l1 generalizing app with
  | nil => rfl
  | cons x rest ih =>
    obtain ⟨e, r⟩ := x
    simp only [List.cons_append, occurAll]
    cases occur e r app with
    | error err => rfl
    | ok app1 => exact ih app1

theorem dispatch_eq_dispatchPure (action : Action) (random : Nat) (s : State) (realm : Realm) :
    App.dispatch { state := s, realm := realm, callbacks := [] } action random =
      match dispatchPure action random (s, realm) with
      | Except.error e => Except.error e
      | Except.ok sr => Except.ok { state := sr.1, realm := sr.2, callbacks := [] } := by
  simp only [App.dispatch, dispatchPure]
  cases QuotesReducer s action random <;> rfl

/-- The events of one operation, run with no callback pending, do what
`perform` does and leave no callback pending. -/
theorem occurAll_eventsOf (x : Operation × Nat) (s : State) (realm : Realm) :
    occurAll (eventsOf x) { state := s, realm := realm, callbacks := [] } =
      match perform x.1 x.2 (s, realm) with
      | Except.error e => Except.error e
      | Except.ok sr => Except.ok { state := sr.1, realm := sr.2, callbacks := [] } := by
  obtain ⟨op, r⟩ := x
  cases op with
  | newQuote =>
    simp only [eventsOf, occurAll, occur, List.nil_append, List.getElem?_cons_zero,
      runCallback, perform, newQuoteDispatch]
    cases newQuote s realm with
    | error e => rfl
    | ok ra =>
      obtain ⟨realm1, action⟩ := ra
      simp only []
      cases QuotesReducer s action r <;> rfl
  | toggleBookmark =>
    simp only [eventsOf, occurAll, occur, List.nil_append, perform]
    cases hc : s.currentQuote with
    | none =>
      have e1 : ¬ (TOGGLE_BOOKMARK = LOAD_QUOTES) := by decide
      have e2 : ¬ (TOGGLE_BOOKMARK = NEXT_QUOTE) := by decide
      simp only [QuotesReducer, e1, e2, if_true, if_false, hc]
    | some q =>
      simp only [toggleBookmark, QuotesReducer_bookmark_some s q r hc,
        List.getElem?_cons_zero, runCallback]
      cases toggleBookmarkWrite q realm <;> rfl
  | changeBgType p =>
    simp only [eventsOf, occurAll, occur, perform, dispatch_eq_dispatchPure]
    cases dispatchPure (changeBgType p) r (s, realm) <;> rfl
  | toggleCategory c =>
    simp only [eventsOf, occurAll, occur, perform, dispatch_eq_dispatchPure]
    cases dispatchPure (toggleCategory c) r (s, realm) <;> rfl
  | selectAllCategories =>
    simp only [eventsOf, occurAll, occur, perform, dispatch_eq_dispatchPure]
    cases dispatchPure selectAllCategories r (s, realm) <;> rfl
  | toggleFavorites =>
    simp only [eventsOf, occurAll, occur, perform, dispatch_eq_dispatchPure]
    cases dispatchPure toggleFavorites r (s, realm) <;> rfl

/-- A run without overlap is a run of `performAll`. -/
theorem occurAll_sequentialEvents (ops : List (Operation × Nat)) (s : State) (realm : Realm) :
    occurAll (sequentialEvents ops) { state := s, realm := realm, callbacks := [] } =
      match performAll ops (s, realm) with
      | Except.error e => Except.error e
      | Except.ok sr => Except.ok { state := sr.1, realm := sr.2, callbacks := [] } := by
  induction ops generalizing s realm with
  | nil => rfl
  | cons x rest ih =>
    obtain ⟨op, r⟩ := x
    simp only [sequentialEvents, occurAll_append, occurAll_eventsOf, performAll]
    cases perform op r (s, realm) with
    | error e => rfl
    | ok sr => exact ih sr.1 sr.2

/-- C20 (as stated, refuted). On the store seeded from `exampleQuotes`, a quote
is shown; then `newQuote` is called and, before its callback runs,
`toggleBookmark(currentQuote)` is called; both callbacks then run and succeed.
At the end no callback is pending, `currentQuote` is not `null`, and the store
row with its id is bookmarked while `currentQuote` is not. -/
theorem occurAll_overlap_currentQuote :
    occurAll overlapEvents (App.seeded exampleQuotes) = Except.ok overlapApp ∧
    overlapApp.callbacks = [] ∧
    ∃ (cq row : Quote), overlapApp.state.currentQuote = some cq ∧
      overlapApp.realm[0]? = some row ∧ row.id = cq.id ∧
      cq.bookmarked = false ∧ row.bookmarked = true ∧ cq ∉ overlapApp.realm :=
  ⟨rfl, rfl, _, _, rfl, rfl, rfl, rfl, rfl, by decide⟩

/-- C20 (amended). From `initialState` and a store seeded once by `loadQuotes`,
after any sequence of successful operations (`newQuote`, `toggleBookmark` on the
current quote, pure preference actions) in which the callback of every thunk
call runs before the next operation starts, no callback is pending and
`currentQuote` is `null`, or it is a row of the store, equal field for field to
every row of the store with its id. -/
theorem occurAll_sequential_currentQuote (quotes : List QuoteData)
    (ops : List (Operation × Nat)) (app : App)
    (h : occurAll (sequentialEvents ops) (App.seeded quotes) = Except.ok app) :
    app.callbacks = [] ∧
    (app.state.currentQuote = none ∨
      ∃ cq : Quote, app.state.currentQuote = some cq ∧ cq ∈ app.realm ∧
        ∀ q ∈ app.realm, q.id = cq.id → q = cq) := by
  unfold App.seeded at h
  rw [occurAll_sequentialEvents] at h
  cases hp : performAll ops (initialState, (loadQuotes quotes []).1) with
  | error e => rw [hp] at h; cases h
  | ok sr =>
    rw [hp] at h
    have happ : app = { state := sr.1, realm := sr.2, callbacks := [] } :=
      (Except.ok.inj h).symm
    subst happ
    exact ⟨rfl, performAll_currentQuote quotes ops sr.1 sr.2 hp⟩

theorem occurAll_sequential_currentQuote_witness :
    occurAll (sequentialEvents exampleOperations) (App.seeded exampleQuotes)
      = Except.ok { state := exampleOperated.1, realm := exampleOperated.2, callbacks := [] } ∧
    exampleOperated.1.currentQuote = some { exampleShownA 1 with bookmarked := true } ∧
    (({ state := exampleOperated.1, realm := exampleOperated.2, callbacks := [] }
        : App).callbacks = [] ∧
      (exampleOperated.1.currentQuote = none ∨
        ∃ cq : Quote, exampleOperated.1.currentQuote = some cq ∧ cq ∈ exampleOperated.2 ∧
          ∀ q ∈ exampleOperated.2, q.id = cq.id → q = cq)) :=
  ⟨rfl, rfl,
    occurAll_sequential_currentQuote exampleQuotes exampleOperations
      { state := exampleOperated.1, realm := exampleOperated.2, callbacks := [] } rfl⟩

/-- The action that `loadQuotes` dispatches carries no payload: the quotes go to
the Realm table only (the docstring of `loadQuotes` speaks of an action "with new
quotes"). -/
theorem loadQuotes_action (quotes : List QuoteData) (realm : Realm) :
    (loadQuotes quotes realm).2 = { type := LOAD_QUOTES, payload := JSValue.undefined } :=
  rfl

end QuotesState
